import Mathlib

/-!
Verification development for the solana-redpacket program.

The on-chain program stores RedPacket and Treasury records as fixed-offset
little-endian byte buffers (programs/solana-redpacket/src/state.rs) and
exposes five instruction handlers (create, claim, close, init_treasury,
withdraw_fees).  Account data is modeled as a byte store indexed by offset;
machine integers are Nat with explicit bounds where u64 or u8 overflow
matters.  Program derived addresses are produced by an injectable
deterministic derivation function, mirroring the design note of the
specification that address derivation is a pure one-way function supplied
by the platform.
-/

set_option maxHeartbeats 1600000
set_option maxRecDepth 8000

namespace RedPacket

/-- Account data: a byte store mapping an offset to the byte stored there.
Real buffers hold u8 values; theorems carry explicit bounds where needed. -/
def ByteStore := Nat → Nat

/-- Point update of a byte store (a single array-slot assignment). -/
def upd (d : ByteStore) (i v : Nat) : ByteStore := fun j => if j = i then v else d j

/-- Little-endian write of the low k bytes of v starting at off
(u64 to_le_bytes followed by copy_from_slice). -/
def writeBytesLE : ByteStore → Nat → Nat → Nat → ByteStore
  | d, _, 0, _ => d
  | d, off, k + 1, v => writeBytesLE (upd d off (v % 256)) (off + 1) k (v / 256)

/-- Little-endian read of k bytes starting at off (from_le_bytes). -/
def readBytesLE : ByteStore → Nat → Nat → Nat
  | _, _, 0 => 0
  | d, off, k + 1 => d off + 256 * readBytesLE d (off + 1) k

/-- copy_from_slice of a whole list of bytes at off. -/
def writeRange : ByteStore → Nat → List Nat → ByteStore
  | d, _, [] => d
  | d, off, b :: bs => writeRange (upd d off b) (off + 1) bs

/-- Read k consecutive bytes starting at off as a list (a borrowed slice). -/
def readRange (d : ByteStore) (off k : Nat) : List Nat :=
  (List.range k).map (fun j => d (off + j))

/-- Little-endian read of k bytes of an instruction-payload byte list;
each entry is masked to the u8 range carried by real payload bytes. -/
def listReadLE (l : List Nat) (off : Nat) : Nat → Nat
  | 0 => 0
  | k + 1 => l.getD off 0 % 256 + 256 * listReadLE l (off + 1) k

/-- Little-endian byte encoding of the low k bytes of v (to_le_bytes). -/
def natToBytesLE (k v : Nat) : List Nat :=
  (List.range k).map (fun j => v / 256 ^ j % 256)

/-- Two-complement reinterpretation of a u64 bit pattern as an i64. -/
def toI64 (u : Nat) : Int :=
  if u % 2 ^ 64 < 2 ^ 63 then ((u % 2 ^ 64 : Nat) : Int)
  else ((u % 2 ^ 64 : Nat) : Int) - 2 ^ 64

/-- Checked u64 subtraction: none on underflow (checked_sub). -/
def checked_sub (a b : Nat) : Option Nat := if b ≤ a then some (a - b) else none

/-- Checked u64 addition: none when the mathematical sum leaves u64 (checked_add). -/
def checked_add (a b : Nat) : Option Nat := if a + b < 2 ^ 64 then some (a + b) else none

/-- Checked u64 multiplication (checked_mul). -/
def checked_mul (a b : Nat) : Option Nat := if a * b < 2 ^ 64 then some (a * b) else none

/-! Basic byte-store lemmas. -/

theorem upd_apply (d : ByteStore) (i v j : Nat) :
    upd d i v j = if j = i then v else d j := rfl

theorem upd_self (d : ByteStore) (i v : Nat) : upd d i v i = v := by
  simp [upd]

theorem upd_ne (d : ByteStore) (i v j : Nat) (h : j ≠ i) : upd d i v j = d j := by
  simp [upd, h]

theorem writeBytesLE_outside (k : Nat) :
    ∀ (d : ByteStore) (off v j : Nat), j < off ∨ off + k ≤ j →
      writeBytesLE d off k v j = d j := by
  induction k with
  | zero => intro d off v j _; rfl
  | succ k ih =>
    intro d off v j h
    show writeBytesLE (upd d off (v % 256)) (off + 1) k (v / 256) j = d j
    rw [ih _ _ _ _ (by omega), upd_ne _ _ _ _ (by omega)]

theorem writeRange_outside :
    ∀ (l : List Nat) (d : ByteStore) (off j : Nat), j < off ∨ off + l.length ≤ j →
      writeRange d off l j = d j := by
  intro l
  induction l with
  | nil => intro d off j _; rfl
  | cons b bs ih =>
    intro d off j h
    show writeRange (upd d off b) (off + 1) bs j = d j
    rw [ih _ _ _ (by simp at h ⊢; omega), upd_ne _ _ _ _ (by simp at h; omega)]

theorem readBytesLE_congr (k : Nat) :
    ∀ (d₁ d₂ : ByteStore) (off : Nat),
      (∀ j, off ≤ j → j < off + k → d₁ j = d₂ j) →
      readBytesLE d₁ off k = readBytesLE d₂ off k := by
  induction k with
  | zero => intro d₁ d₂ off _; rfl
  | succ k ih =>
    intro d₁ d₂ off h
    show d₁ off + 256 * readBytesLE d₁ (off + 1) k
        = d₂ off + 256 * readBytesLE d₂ (off + 1) k
    rw [h off (le_refl _) (by omega), ih _ _ _ (fun j h1 h2 => h j (by omega) (by omega))]

theorem readRange_congr (d₁ d₂ : ByteStore) (off k : Nat)
    (h : ∀ j, off ≤ j → j < off + k → d₁ j = d₂ j) :
    readRange d₁ off k = readRange d₂ off k := by
  unfold readRange
  apply List.map_congr_left
  intro j hj
  exact h _ (by omega) (by simp [List.mem_range] at hj; omega)

theorem readBytesLE_writeBytesLE (k : Nat) :
    ∀ (d : ByteStore) (off v : Nat),
      readBytesLE (writeBytesLE d off k v) off k = v % 256 ^ k := by
  induction k with
  | zero => intro d off v; simp [readBytesLE, Nat.mod_one]
  | succ k ih =>
    intro d off v
    show writeBytesLE (upd d off (v % 256)) (off + 1) k (v / 256) off
        + 256 * readBytesLE (writeBytesLE (upd d off (v % 256)) (off + 1) k (v / 256)) (off + 1) k
        = v % 256 ^ (k + 1)
    rw [writeBytesLE_outside _ _ _ _ _ (Or.inl (by omega)), upd_self, ih]
    rw [pow_succ, mul_comm (256 ^ k) 256, Nat.mod_mul]

theorem readRange_length (d : ByteStore) (off k : Nat) :
    (readRange d off k).length = k := by
  simp [readRange]

theorem readRange_succ (d : ByteStore) (off k : Nat) :
    readRange d off (k + 1) = d off :: readRange d (off + 1) k := by
  unfold readRange
  rw [List.range_succ_eq_map]
  simp [Function.comp, Nat.add_comm, Nat.add_assoc, Nat.add_left_comm]

theorem readRange_writeRange :
    ∀ (l : List Nat) (d : ByteStore) (off : Nat),
      readRange (writeRange d off l) off l.length = l := by
  intro l
  induction l with
  | nil => intro d off; rfl
  | cons b bs ih =>
    intro d off
    show readRange (writeRange (upd d off b) (off + 1) bs) off (bs.length + 1) = b :: bs
    rw [readRange_succ, writeRange_outside _ _ _ _ (Or.inl (by omega)), upd_self, ih]

theorem readBytesLE_lt_of_bytes_lt (k : Nat) :
    ∀ (d : ByteStore) (off : Nat), (∀ j, off ≤ j → j < off + k → d j < 256) →
      readBytesLE d off k < 256 ^ k := by
  induction k with
  | zero => intro d off _; simp [readBytesLE]
  | succ k ih =>
    intro d off h
    show d off + 256 * readBytesLE d (off + 1) k < 256 ^ (k + 1)
    have h1 : d off < 256 := h off (le_refl _) (by omega)
    have h2 : readBytesLE d (off + 1) k < 256 ^ k :=
      ih _ _ (fun j hj1 hj2 => h j (by omega) (by omega))
    calc d off + 256 * readBytesLE d (off + 1) k
        < 256 + 256 * readBytesLE d (off + 1) k := by omega
      _ = 256 * (readBytesLE d (off + 1) k + 1) := by ring
      _ ≤ 256 * 256 ^ k := by
          have : readBytesLE d (off + 1) k + 1 ≤ 256 ^ k := h2
          exact Nat.mul_le_mul_left _ this
      _ = 256 ^ (k + 1) := by ring

theorem listReadLE_lt (k : Nat) :
    ∀ (l : List Nat) (off : Nat), listReadLE l off k < 256 ^ k := by
  induction k with
  | zero => intro l off; simp [listReadLE]
  | succ k ih =>
    intro l off
    show l.getD off 0 % 256 + 256 * listReadLE l (off + 1) k < 256 ^ (k + 1)
    have h1 : l.getD off 0 % 256 < 256 := Nat.mod_lt _ (by norm_num)
    have h2 := ih l (off + 1)
    calc l.getD off 0 % 256 + 256 * listReadLE l (off + 1) k
        < 256 + 256 * listReadLE l (off + 1) k := by omega
      _ = 256 * (listReadLE l (off + 1) k + 1) := by ring
      _ ≤ 256 * 256 ^ k := Nat.mul_le_mul_left _ h2
      _ = 256 ^ (k + 1) := by ring

/-! Program constants, from programs/solana-redpacket/src/constants.rs.
The three base58 address literals are spelled out as their decoded 32 bytes. -/

/-- Program id CeAkHjhJzgrwbg8QWQ8tx6h5UxMZVKuGBeEDYczbc6Gz, decoded. -/
def ID : List Nat :=
  [172, 246, 16, 253, 53, 197, 118, 170, 68, 67, 165, 143, 208, 228, 113, 105,
   0, 140, 50, 56, 5, 227, 7, 215, 0, 4, 180, 218, 204, 19, 55, 203]

/-- Admin authority HyBxuaafzKP6k4zkEDUp4LrZctS9mJVNUEEJBmp9cp7L, decoded. -/
def ADMIN : List Nat :=
  [252, 31, 233, 190, 36, 167, 111, 157, 50, 135, 2, 182, 10, 96, 101, 156,
   168, 136, 206, 208, 193, 192, 83, 152, 229, 114, 103, 167, 155, 203, 154, 99]

/-- Token program TokenkegQfeZyiNwAJbNbGKPFXCWuBvf9Ss623VQ5DA, decoded. -/
def TOKEN_PROGRAM_ID : List Nat :=
  [6, 221, 246, 225, 215, 101, 161, 147, 217, 203, 225, 70, 206, 235, 121, 172,
   28, 180, 133, 237, 95, 91, 55, 145, 58, 140, 245, 133, 126, 255, 0, 169]

def SYSTEM_PROGRAM_ID : List Nat := List.replicate 32 0

/-- Seed bytes of the string redpacket. -/
def SEED_PREFIX : List Nat := [114, 101, 100, 112, 97, 99, 107, 101, 116]

/-- Seed bytes of the string vault. -/
def VAULT_SEED : List Nat := [118, 97, 117, 108, 116]

/-- Seed bytes of the string treasury. -/
def TREASURY_SEED : List Nat := [116, 114, 101, 97, 115, 117, 114, 121]

/-- Seed bytes of the string treasury_vault. -/
def TREASURY_VAULT_SEED : List Nat :=
  [116, 114, 101, 97, 115, 117, 114, 121, 95, 118, 97, 117, 108, 116]

@[simp] def TOKEN_TYPE_SPL : Nat := 0
@[simp] def TOKEN_TYPE_SOL : Nat := 1
@[simp] def MAX_RECIPIENTS : Nat := 20
@[simp] def REDPACKET_DISCRIMINATOR : Nat := 1
@[simp] def TREASURY_DISCRIMINATOR : Nat := 2
@[simp] def SPLIT_EVEN : Nat := 0
@[simp] def SPLIT_RANDOM : Nat := 1
@[simp] def FEE_RATE_BPS : Nat := 10
@[simp] def FEE_DENOMINATOR : Nat := 10000
@[simp] def REDPACKET_BASE_SIZE : Nat := 71
@[simp] def PER_RECIPIENT_SIZE : Nat := 40
@[simp] def TREASURY_SIZE : Nat := 43
@[simp] def TOKEN_ACCOUNT_SIZE : Nat := 165

/-- Account size allocated for a RedPacket with the given recipient count. -/
def redpacket_size (num_recipients : Nat) : Nat :=
  REDPACKET_BASE_SIZE + PER_RECIPIENT_SIZE * num_recipients

/-- Sentinel mint for the native SOL treasury derivation: 32 bytes of 0xFF. -/
def NATIVE_SOL_MINT : List Nat := List.replicate 32 255

/-- Rent-exempt minimum: (data_len + 128) * 2 * 3480. -/
def rent_exempt (data_len : Nat) : Nat := (data_len + 128) * 2 * 3480

/-! Error taxonomy, from programs/solana-redpacket/src/error.rs plus the
pinocchio built-in ProgramError variants the handlers use. -/

/-- A program error: either a program-specific custom code or a built-in. -/
inductive PErr where
  | Custom : Nat → PErr
  | InvalidAccountData : PErr
  | InvalidInstructionData : PErr
  | MissingRequiredSignature : PErr
  | ArithmeticOverflow : PErr
deriving DecidableEq, Repr

namespace RedPacketError

def InvalidAmount : PErr := .Custom 0
def InvalidRecipientCount : PErr := .Custom 1
def InvalidSplitMode : PErr := .Custom 2
def AlreadyClaimed : PErr := .Custom 3
def RedPacketFull : PErr := .Custom 4
def Expired : PErr := .Custom 5
def NotExpiredOrFull : PErr := .Custom 6
def Unauthorized : PErr := .Custom 7
def InvalidPDA : PErr := .Custom 8
def InvalidAccountOwner : PErr := .Custom 9
def InvalidDiscriminator : PErr := .Custom 10
def AmountMismatch : PErr := .Custom 11
def NotEnoughAccounts : PErr := .Custom 12
def UnauthorizedAdmin : PErr := .Custom 13
def TreasuryNotInitialized : PErr := .Custom 14
def InsufficientTreasuryBalance : PErr := .Custom 15
def TreasuryAlreadyInitialized : PErr := .Custom 16
def InvalidMint : PErr := .Custom 17
def InvalidTokenAccount : PErr := .Custom 18
def InvalidTokenProgram : PErr := .Custom 19
def InvalidSystemProgram : PErr := .Custom 20
def InvalidTokenType : PErr := .Custom 21

end RedPacketError

/-! RedPacket record codec, from programs/solana-redpacket/src/state.rs.
Field offsets follow the layout comment and offset constants there. -/

@[simp] def DISCRIMINATOR_OFFSET : Nat := 0
@[simp] def CREATOR_OFFSET : Nat := 1
@[simp] def ID_OFFSET : Nat := 33
@[simp] def TOTAL_AMOUNT_OFFSET : Nat := 41
@[simp] def REMAINING_AMOUNT_OFFSET : Nat := 49
@[simp] def NUM_RECIPIENTS_OFFSET : Nat := 57
@[simp] def NUM_CLAIMED_OFFSET : Nat := 58
@[simp] def SPLIT_MODE_OFFSET : Nat := 59
@[simp] def BUMP_OFFSET : Nat := 60
@[simp] def VAULT_BUMP_OFFSET : Nat := 61
@[simp] def EXPIRES_AT_OFFSET : Nat := 62
@[simp] def AMOUNTS_OFFSET : Nat := 70

def read_u64 (d : ByteStore) (off : Nat) : Nat := readBytesLE d off 8

def read_i64 (d : ByteStore) (off : Nat) : Int := toI64 (readBytesLE d off 8)

def write_u64 (d : ByteStore) (off v : Nat) : ByteStore := writeBytesLE d off 8 v

def write_i64 (d : ByteStore) (off : Nat) (v : Int) : ByteStore :=
  writeBytesLE d off 8 (v % (2 ^ 64 : Int)).toNat

def claimers_offset (num_recipients : Nat) : Nat :=
  AMOUNTS_OFFSET + 8 * num_recipients

def get_creator (d : ByteStore) : List Nat := readRange d CREATOR_OFFSET 32

def get_id (d : ByteStore) : Nat := read_u64 d ID_OFFSET

def get_total_amount (d : ByteStore) : Nat := read_u64 d TOTAL_AMOUNT_OFFSET

def get_remaining_amount (d : ByteStore) : Nat := read_u64 d REMAINING_AMOUNT_OFFSET

def get_num_recipients (d : ByteStore) : Nat := d NUM_RECIPIENTS_OFFSET

def get_num_claimed (d : ByteStore) : Nat := d NUM_CLAIMED_OFFSET

def get_split_mode (d : ByteStore) : Nat := d SPLIT_MODE_OFFSET

def get_bump (d : ByteStore) : Nat := d BUMP_OFFSET

def get_vault_bump (d : ByteStore) : Nat := d VAULT_BUMP_OFFSET

def get_expires_at (d : ByteStore) : Int := read_i64 d EXPIRES_AT_OFFSET

def get_amount_at (d : ByteStore) (index : Nat) : Nat :=
  read_u64 d (AMOUNTS_OFFSET + 8 * index)

def get_claimer_at (d : ByteStore) (num_recipients index : Nat) : List Nat :=
  readRange d (claimers_offset num_recipients + 32 * index) 32

/-- Loop writing the per-slot amounts array of init_redpacket, starting at
slot index i. -/
def writeAmounts : ByteStore → Nat → List Nat → ByteStore
  | d, _, [] => d
  | d, i, a :: rest => writeAmounts (write_u64 d (AMOUNTS_OFFSET + 8 * i) a) (i + 1) rest

def init_redpacket (d : ByteStore) (creator : List Nat) (idv total num_recipients
    split_mode bump vault_bump : Nat) (expires_at : Int) (amounts : List Nat) : ByteStore :=
  let d1 := upd d DISCRIMINATOR_OFFSET REDPACKET_DISCRIMINATOR
  let d2 := writeRange d1 CREATOR_OFFSET creator
  let d3 := write_u64 d2 ID_OFFSET idv
  let d4 := write_u64 d3 TOTAL_AMOUNT_OFFSET total
  let d5 := write_u64 d4 REMAINING_AMOUNT_OFFSET total
  let d6 := upd d5 NUM_RECIPIENTS_OFFSET num_recipients
  let d7 := upd d6 NUM_CLAIMED_OFFSET 0
  let d8 := upd d7 SPLIT_MODE_OFFSET split_mode
  let d9 := upd d8 BUMP_OFFSET bump
  let d10 := upd d9 VAULT_BUMP_OFFSET vault_bump
  let d11 := write_i64 d10 EXPIRES_AT_OFFSET expires_at
  writeAmounts d11 0 amounts

def set_remaining_amount (d : ByteStore) (amount : Nat) : ByteStore :=
  write_u64 d REMAINING_AMOUNT_OFFSET amount

def set_num_claimed (d : ByteStore) (count : Nat) : ByteStore :=
  upd d NUM_CLAIMED_OFFSET count

def set_claimer_at (d : ByteStore) (num_recipients index : Nat) (claimer : List Nat) :
    ByteStore :=
  writeRange d (claimers_offset num_recipients + 32 * index) claimer

/-- Linear scan of claimers[0..num_claimed) for the given claimer identity. -/
def has_claimed (d : ByteStore) (num_recipients num_claimed : Nat)
    (claimer : List Nat) : Bool :=
  (List.range num_claimed).any
    (fun i => decide (get_claimer_at d num_recipients i = claimer))

/-! Treasury record codec, from state.rs (discriminator, bump, vault_bump,
mint), plus the native-fee counter modelled below. -/

@[simp] def TREASURY_BUMP_OFFSET : Nat := 1
@[simp] def TREASURY_VAULT_BUMP_OFFSET : Nat := 2
@[simp] def TREASURY_MINT_OFFSET : Nat := 3

def get_treasury_bump (d : ByteStore) : Nat := d TREASURY_BUMP_OFFSET

def get_treasury_vault_bump (d : ByteStore) : Nat := d TREASURY_VAULT_BUMP_OFFSET

def get_treasury_mint (d : ByteStore) : List Nat := readRange d TREASURY_MINT_OFFSET 32

/-- Modelled from the spec: the running native-fee counter of the treasury
record.  The handlers call state::get_sol_fees_collected, but src/state.rs
(the single-asset variant of the codec) does not define it; the spec treasury
layout ends with fees_collected(8) for the native asset and the TREASURY_SIZE
comment in constants.rs places it after the 32-byte mint, at offset 35. -/
def get_sol_fees_collected (d : ByteStore) : Nat := read_u64 d 35

/-- Modelled from the spec: writer for the native-fee counter at offset 35,
the counterpart of get_sol_fees_collected (absent from src/state.rs). -/
def set_sol_fees_collected (d : ByteStore) (v : Nat) : ByteStore := write_u64 d 35 v

/-- Modelled from the spec: the asset-kind tag check called by the handlers as
state::validate_token_type but absent from src/state.rs; the spec error
taxonomy names an invalid asset-kind tag condition, mapped to InvalidTokenType. -/
def validate_token_type (t : Nat) : Except PErr Unit :=
  if t = TOKEN_TYPE_SPL ∨ t = TOKEN_TYPE_SOL then .ok ()
  else .error RedPacketError.InvalidTokenType

/-! Accounts and validation, modeling the pinocchio AccountView surface the
handlers use: address, owning program, lamports, data and signer flag. -/

structure AccountView where
  address : List Nat
  owner : List Nat
  lamports : Nat
  data : ByteStore
  dataLen : Nat
  isSigner : Bool

/-- Placeholder account returned by out-of-range list indexing; every handler
checks the account count before indexing, so it is never observed. -/
def defaultAccount : AccountView :=
  { address := [], owner := [], lamports := 0, data := fun _ => 0,
    dataLen := 0, isSigner := false }

/-- Validate that an account is a valid RedPacket record (state.rs). -/
def validate_redpacket (a : AccountView) (program_id : List Nat) : Except PErr Unit :=
  if a.owner ≠ program_id then .error RedPacketError.InvalidAccountOwner
  else if a.dataLen < REDPACKET_BASE_SIZE then .error .InvalidAccountData
  else if a.data DISCRIMINATOR_OFFSET ≠ REDPACKET_DISCRIMINATOR then
    .error RedPacketError.InvalidDiscriminator
  else .ok ()

/-- Validate that an account is an initialized Treasury record (state.rs). -/
def validate_treasury (a : AccountView) (program_id : List Nat) : Except PErr Unit :=
  if a.owner ≠ program_id then .error RedPacketError.InvalidAccountOwner
  else if a.dataLen < TREASURY_SIZE then .error .InvalidAccountData
  else if a.data 0 ≠ TREASURY_DISCRIMINATOR then
    .error RedPacketError.TreasuryNotInitialized
  else .ok ()

/-- Injectable deterministic program-address derivation: a seed list either
derives an address or fails (Address::create_program_address).  The spec
design notes call for modeling derivation as a pure injected interface. -/
def DeriveFn := List (List Nat) → Option (List Nat)

/-! Claim handler, from programs/solana-redpacket/src/instructions/claim.rs.
The stored asset-kind byte of the record is passed as storedTokenType: the
handler reads it through state::get_token_type, which src/state.rs (the
single-asset codec variant) does not define and whose offset the two source
variants disagree on, so it is modelled from the spec as a separate component
of the record state.  The SPL transfer is a CPI into the token program whose
effect lives in external token accounts; the outcome records the moved amount
in the paid field, and lamports are unchanged on that path. -/

structure ClaimOutcome where
  rpData : ByteStore
  claimerLamports : Nat
  vaultLamports : Nat
  paid : Nat

/-- Core of the claim handler, after account resolution: the named accounts
are the claimer, the red packet record, its vault, and (for the fungible
path) the token program account. -/
def processClaimCore (derive : DeriveFn) (token_type : Nat)
    (claimer red_packet vault token_program_acct : AccountView)
    (storedTokenType : Nat) (now : Int) : Except PErr ClaimOutcome :=
  if token_type ≠ TOKEN_TYPE_SOL ∧ token_program_acct.address ≠ TOKEN_PROGRAM_ID then
    .error RedPacketError.InvalidTokenProgram
  else if claimer.isSigner = false then .error .MissingRequiredSignature
  else
    match validate_redpacket red_packet ID with
    | .error e => .error e
    | .ok _ =>
      let d := red_packet.data
      if storedTokenType ≠ token_type then .error RedPacketError.InvalidTokenType
      else
        let num_recipients := get_num_recipients d
        let num_claimed := get_num_claimed d
        let expires_at := get_expires_at d
        let vault_bump := get_vault_bump d
        let creator_bytes := get_creator d
        let id_bytes := natToBytesLE 8 (get_id d)
        match derive [VAULT_SEED, creator_bytes, id_bytes, [vault_bump]] with
        | none => .error RedPacketError.InvalidPDA
        | some expected_vault =>
          if vault.address ≠ expected_vault then .error RedPacketError.InvalidPDA
          else if expires_at ≤ now then .error RedPacketError.Expired
          else if num_recipients ≤ num_claimed then
            .error RedPacketError.RedPacketFull
          else if has_claimed d num_recipients num_claimed claimer.address then
            .error RedPacketError.AlreadyClaimed
          else
            let amount := get_amount_at d num_claimed
            let transfer : Except PErr (Nat × Nat) :=
              if token_type = TOKEN_TYPE_SOL then
                if vault.owner ≠ ID then .error RedPacketError.InvalidAccountOwner
                else
                  match checked_sub vault.lamports amount with
                  | none => .error .ArithmeticOverflow
                  | some vl =>
                    match checked_add claimer.lamports amount with
                    | none => .error .ArithmeticOverflow
                    | some cl => .ok (cl, vl)
              else
                .ok (claimer.lamports, vault.lamports)
            match transfer with
            | .error e => .error e
            | .ok (cl, vl) =>
              let d1 := set_claimer_at d num_recipients num_claimed claimer.address
              let d2 := set_num_claimed d1 ((num_claimed + 1) % 256)
              let remaining := get_remaining_amount d2
              match checked_sub remaining amount with
              | none => .error .ArithmeticOverflow
              | some r =>
                .ok { rpData := set_remaining_amount d2 r,
                      claimerLamports := cl, vaultLamports := vl, paid := amount }

/-- Claim handler entry: parses the asset-kind byte, checks the account count
and resolves the account indices of claim.rs, then runs the core. -/
def processClaim (derive : DeriveFn) (accounts : List AccountView) (instr : List Nat)
    (storedTokenType : Nat) (now : Int) : Except PErr ClaimOutcome :=
  match instr with
  | [] => .error .InvalidInstructionData
  | t :: _ =>
    let token_type := t % 256
    match validate_token_type token_type with
    | .error e => .error e
    | .ok _ =>
      if accounts.length < (if token_type = TOKEN_TYPE_SOL then 3 else 5) then
        .error RedPacketError.NotEnoughAccounts
      else
        processClaimCore derive token_type (accounts.getD 0 defaultAccount)
          (accounts.getD (if token_type = TOKEN_TYPE_SOL then 1 else 2) defaultAccount)
          (accounts.getD (if token_type = TOKEN_TYPE_SOL then 2 else 3) defaultAccount)
          (accounts.getD 4 defaultAccount) storedTokenType now

/-- Sum of the first k per-slot amounts of a record. -/
def claimedSum (d : ByteStore) (k : Nat) : Nat :=
  ((List.range k).map (fun i => get_amount_at d i)).sum

/-- The RedPacket record invariant of the spec: the remaining amount is the
total minus the sum of the already-claimed slots, never exceeds the total,
and the claim count never exceeds the recipient count. -/
def RPInv (d : ByteStore) : Prop :=
  get_remaining_amount d = get_total_amount d - claimedSum d (get_num_claimed d) ∧
  get_remaining_amount d ≤ get_total_amount d ∧
  get_num_claimed d ≤ get_num_recipients d

/-! Field lemmas about the three record writes a successful claim performs. -/

theorem pow_256_8 : 256 ^ 8 = 2 ^ 64 := by norm_num

theorem claimUpdate_pointwise (d : ByteStore) (nR i c r : Nat) (a : List Nat) (j : Nat)
    (h1 : j < 70) (h2 : j ≠ 58) (h3 : j < 49 ∨ 57 ≤ j) :
    set_remaining_amount (set_num_claimed (set_claimer_at d nR i a) c) r j = d j := by
  have hco : 70 ≤ claimers_offset nR := by unfold claimers_offset AMOUNTS_OFFSET; omega
  unfold set_remaining_amount write_u64 REMAINING_AMOUNT_OFFSET
  rw [writeBytesLE_outside _ _ _ _ _ (by omega)]
  unfold set_num_claimed NUM_CLAIMED_OFFSET
  rw [upd_ne _ _ _ _ h2]
  unfold set_claimer_at
  exact writeRange_outside _ _ _ _ (Or.inl (by omega))

theorem claimers_offset_ge (nR : Nat) : 70 ≤ claimers_offset nR := by
  unfold claimers_offset AMOUNTS_OFFSET; omega

theorem claimUpdate_total (d : ByteStore) (nR i c r : Nat) (a : List Nat) :
    get_total_amount (set_remaining_amount (set_num_claimed (set_claimer_at d nR i a) c) r)
      = get_total_amount d := by
  unfold get_total_amount read_u64 TOTAL_AMOUNT_OFFSET
  apply readBytesLE_congr
  intro j hj1 hj2
  exact claimUpdate_pointwise d nR i c r a j (by omega) (by omega) (by omega)

theorem claimUpdate_num_recipients (d : ByteStore) (nR i c r : Nat) (a : List Nat) :
    get_num_recipients
        (set_remaining_amount (set_num_claimed (set_claimer_at d nR i a) c) r)
      = get_num_recipients d := by
  unfold get_num_recipients NUM_RECIPIENTS_OFFSET
  exact claimUpdate_pointwise d nR i c r a _ (by omega) (by omega) (by omega)

theorem claimUpdate_num_claimed (d : ByteStore) (nR i c r : Nat) (a : List Nat) :
    get_num_claimed
        (set_remaining_amount (set_num_claimed (set_claimer_at d nR i a) c) r) = c := by
  unfold get_num_claimed set_remaining_amount write_u64 NUM_CLAIMED_OFFSET
    REMAINING_AMOUNT_OFFSET
  rw [writeBytesLE_outside _ _ _ _ _ (by omega)]
  unfold set_num_claimed NUM_CLAIMED_OFFSET
  exact upd_self _ _ _

theorem claimUpdate_remaining (d : ByteStore) (nR i c r : Nat) (a : List Nat) :
    get_remaining_amount
        (set_remaining_amount (set_num_claimed (set_claimer_at d nR i a) c) r)
      = r % 2 ^ 64 := by
  unfold get_remaining_amount read_u64 set_remaining_amount write_u64
  rw [readBytesLE_writeBytesLE, pow_256_8]

theorem claimUpdate_amount_at (d : ByteStore) (nR i c r j : Nat) (a : List Nat)
    (hj : j < nR) :
    get_amount_at (set_remaining_amount (set_num_claimed (set_claimer_at d nR i a) c) r) j
      = get_amount_at d j := by
  have hco : claimers_offset nR = 70 + 8 * nR := by
    unfold claimers_offset AMOUNTS_OFFSET; omega
  unfold get_amount_at read_u64 AMOUNTS_OFFSET
  apply readBytesLE_congr
  intro j₁ hj1 hj2
  unfold set_remaining_amount write_u64 REMAINING_AMOUNT_OFFSET
  rw [writeBytesLE_outside _ _ _ _ _ (by omega)]
  unfold set_num_claimed NUM_CLAIMED_OFFSET
  rw [upd_ne _ _ _ _ (by omega)]
  unfold set_claimer_at
  exact writeRange_outside _ _ _ _ (Or.inl (by omega))

theorem claimUpdate_expires (d : ByteStore) (nR i c r : Nat) (a : List Nat) :
    get_expires_at (set_remaining_amount (set_num_claimed (set_claimer_at d nR i a) c) r)
      = get_expires_at d := by
  unfold get_expires_at read_i64 EXPIRES_AT_OFFSET
  apply congrArg toI64
  apply readBytesLE_congr
  intro j hj1 hj2
  exact claimUpdate_pointwise d nR i c r a j (by omega) (by omega) (by omega)

theorem claimUpdate_creator (d : ByteStore) (nR i c r : Nat) (a : List Nat) :
    get_creator (set_remaining_amount (set_num_claimed (set_claimer_at d nR i a) c) r)
      = get_creator d := by
  unfold get_creator CREATOR_OFFSET
  apply readRange_congr
  intro j hj1 hj2
  exact claimUpdate_pointwise d nR i c r a j (by omega) (by omega) (by omega)

theorem claimUpdate_id (d : ByteStore) (nR i c r : Nat) (a : List Nat) :
    get_id (set_remaining_amount (set_num_claimed (set_claimer_at d nR i a) c) r)
      = get_id d := by
  unfold get_id read_u64 ID_OFFSET
  apply readBytesLE_congr
  intro j hj1 hj2
  exact claimUpdate_pointwise d nR i c r a j (by omega) (by omega) (by omega)

theorem claimUpdate_vault_bump (d : ByteStore) (nR i c r : Nat) (a : List Nat) :
    get_vault_bump (set_remaining_amount (set_num_claimed (set_claimer_at d nR i a) c) r)
      = get_vault_bump d := by
  unfold get_vault_bump VAULT_BUMP_OFFSET
  exact claimUpdate_pointwise d nR i c r a _ (by omega) (by omega) (by omega)

theorem claimUpdate_disc (d : ByteStore) (nR i c r : Nat) (a : List Nat) :
    set_remaining_amount (set_num_claimed (set_claimer_at d nR i a) c) r
        DISCRIMINATOR_OFFSET
      = d DISCRIMINATOR_OFFSET := by
  unfold DISCRIMINATOR_OFFSET
  exact claimUpdate_pointwise d nR i c r a _ (by omega) (by omega) (by omega)

theorem claimUpdate_claimer_at (d : ByteStore) (nR i c r j : Nat) (a : List Nat) :
    get_claimer_at
        (set_remaining_amount (set_num_claimed (set_claimer_at d nR i a) c) r) nR j
      = get_claimer_at (set_claimer_at d nR i a) nR j := by
  have hco : 70 ≤ claimers_offset nR := claimers_offset_ge nR
  unfold get_claimer_at
  apply readRange_congr
  intro j₁ hj1 hj2
  unfold set_remaining_amount write_u64 REMAINING_AMOUNT_OFFSET
  rw [writeBytesLE_outside _ _ _ _ _ (by omega)]
  unfold set_num_claimed NUM_CLAIMED_OFFSET
  exact upd_ne _ _ _ _ (by omega)

theorem set_claimer_at_self (d : ByteStore) (nR i : Nat) (a : List Nat)
    (ha : a.length = 32) :
    get_claimer_at (set_claimer_at d nR i a) nR i = a := by
  unfold get_claimer_at set_claimer_at
  have h := readRange_writeRange a d (claimers_offset nR + 32 * i)
  rwa [ha] at h

theorem set_claimer_at_lt (d : ByteStore) (nR i j : Nat) (a : List Nat) (hji : j < i) :
    get_claimer_at (set_claimer_at d nR i a) nR j = get_claimer_at d nR j := by
  unfold get_claimer_at set_claimer_at
  apply readRange_congr
  intro j₁ hj1 hj2
  exact writeRange_outside _ _ _ _ (Or.inl (by omega))

/-! Readback lemmas for init_redpacket. -/

theorem writeAmounts_outside :
    ∀ (l : List Nat) (d : ByteStore) (i j : Nat), j < 70 + 8 * i →
      writeAmounts d i l j = d j := by
  intro l
  induction l with
  | nil => intro d i j _; rfl
  | cons a rest ih =>
    intro d i j h
    show writeAmounts (write_u64 d (AMOUNTS_OFFSET + 8 * i) a) (i + 1) rest j = d j
    rw [ih _ _ _ (by omega)]
    unfold write_u64 AMOUNTS_OFFSET
    exact writeBytesLE_outside _ _ _ _ _ (Or.inl (by omega))

theorem get_amount_at_writeAmounts :
    ∀ (l : List Nat) (d : ByteStore) (i j : Nat), j < l.length →
      get_amount_at (writeAmounts d i l) (i + j) = l.getD j 0 % 2 ^ 64 := by
  intro l
  induction l with
  | nil => intro d i j h; simp at h
  | cons a rest ih =>
    intro d i j h
    cases j with
    | zero =>
      show get_amount_at (writeAmounts (write_u64 d (AMOUNTS_OFFSET + 8 * i) a)
        (i + 1) rest) (i + 0) = a % 2 ^ 64
      unfold get_amount_at read_u64
      rw [readBytesLE_congr _ _ _ _ (fun j hj1 hj2 => writeAmounts_outside rest _ _ _
        (by unfold AMOUNTS_OFFSET at hj1 hj2; omega))]
      have he : AMOUNTS_OFFSET + 8 * (i + 0) = AMOUNTS_OFFSET + 8 * i := by omega
      rw [he]
      unfold write_u64
      rw [readBytesLE_writeBytesLE, pow_256_8]
    | succ j =>
      show get_amount_at (writeAmounts (write_u64 d (AMOUNTS_OFFSET + 8 * i) a)
        (i + 1) rest) (i + (j + 1)) = rest.getD j 0 % 2 ^ 64
      have happ : i + (j + 1) = (i + 1) + j := by omega
      rw [happ, ih _ _ _ (by simpa using h)]

theorem init_total (d : ByteStore) (creator : List Nat)
    (idv total nR mode bump vbump : Nat) (exp : Int) (amounts : List Nat) :
    get_total_amount (init_redpacket d creator idv total nR mode bump vbump exp amounts)
      = total % 2 ^ 64 := by
  unfold init_redpacket get_total_amount read_u64
  have hpoint : ∀ j, TOTAL_AMOUNT_OFFSET ≤ j → j < TOTAL_AMOUNT_OFFSET + 8 →
      writeAmounts (write_i64 (upd (upd (upd (upd (upd (write_u64 (write_u64 (write_u64
          (writeRange (upd d DISCRIMINATOR_OFFSET REDPACKET_DISCRIMINATOR)
            CREATOR_OFFSET creator)
          ID_OFFSET idv) TOTAL_AMOUNT_OFFSET total) REMAINING_AMOUNT_OFFSET total)
          NUM_RECIPIENTS_OFFSET nR) NUM_CLAIMED_OFFSET 0) SPLIT_MODE_OFFSET mode)
          BUMP_OFFSET bump) VAULT_BUMP_OFFSET vbump) EXPIRES_AT_OFFSET exp) 0 amounts j
        = write_u64 (write_u64
            (writeRange (upd d DISCRIMINATOR_OFFSET REDPACKET_DISCRIMINATOR)
              CREATOR_OFFSET creator)
            ID_OFFSET idv) TOTAL_AMOUNT_OFFSET total j := by
    intro j hj1 hj2
    simp only [TOTAL_AMOUNT_OFFSET] at hj1 hj2
    rw [writeAmounts_outside _ _ _ _ (by omega)]
    unfold write_i64
    rw [writeBytesLE_outside _ _ _ _ _ (by simp only [EXPIRES_AT_OFFSET]; omega)]
    rw [upd_ne _ _ _ _ (by simp only [VAULT_BUMP_OFFSET]; omega)]
    rw [upd_ne _ _ _ _ (by simp only [BUMP_OFFSET]; omega)]
    rw [upd_ne _ _ _ _ (by simp only [SPLIT_MODE_OFFSET]; omega)]
    rw [upd_ne _ _ _ _ (by simp only [NUM_CLAIMED_OFFSET]; omega)]
    rw [upd_ne _ _ _ _ (by simp only [NUM_RECIPIENTS_OFFSET]; omega)]
    show write_u64 _ REMAINING_AMOUNT_OFFSET total j = _
    unfold write_u64
    rw [writeBytesLE_outside _ _ _ _ _ (by simp only [REMAINING_AMOUNT_OFFSET]; omega)]
  rw [readBytesLE_congr _ _ _ _ hpoint]
  unfold write_u64
  rw [readBytesLE_writeBytesLE, pow_256_8]

theorem init_remaining (d : ByteStore) (creator : List Nat)
    (idv total nR mode bump vbump : Nat) (exp : Int) (amounts : List Nat) :
    get_remaining_amount
        (init_redpacket d creator idv total nR mode bump vbump exp amounts)
      = total % 2 ^ 64 := by
  unfold init_redpacket get_remaining_amount read_u64
  have hpoint : ∀ j, REMAINING_AMOUNT_OFFSET ≤ j → j < REMAINING_AMOUNT_OFFSET + 8 →
      writeAmounts (write_i64 (upd (upd (upd (upd (upd (write_u64 (write_u64 (write_u64
          (writeRange (upd d DISCRIMINATOR_OFFSET REDPACKET_DISCRIMINATOR)
            CREATOR_OFFSET creator)
          ID_OFFSET idv) TOTAL_AMOUNT_OFFSET total) REMAINING_AMOUNT_OFFSET total)
          NUM_RECIPIENTS_OFFSET nR) NUM_CLAIMED_OFFSET 0) SPLIT_MODE_OFFSET mode)
          BUMP_OFFSET bump) VAULT_BUMP_OFFSET vbump) EXPIRES_AT_OFFSET exp) 0 amounts j
        = write_u64 (write_u64 (write_u64
            (writeRange (upd d DISCRIMINATOR_OFFSET REDPACKET_DISCRIMINATOR)
              CREATOR_OFFSET creator)
            ID_OFFSET idv) TOTAL_AMOUNT_OFFSET total) REMAINING_AMOUNT_OFFSET total j := by
    intro j hj1 hj2
    simp only [REMAINING_AMOUNT_OFFSET] at hj1 hj2
    rw [writeAmounts_outside _ _ _ _ (by omega)]
    unfold write_i64
    rw [writeBytesLE_outside _ _ _ _ _ (by simp only [EXPIRES_AT_OFFSET]; omega)]
    rw [upd_ne _ _ _ _ (by simp only [VAULT_BUMP_OFFSET]; omega)]
    rw [upd_ne _ _ _ _ (by simp only [BUMP_OFFSET]; omega)]
    rw [upd_ne _ _ _ _ (by simp only [SPLIT_MODE_OFFSET]; omega)]
    rw [upd_ne _ _ _ _ (by simp only [NUM_CLAIMED_OFFSET]; omega)]
    rw [upd_ne _ _ _ _ (by simp only [NUM_RECIPIENTS_OFFSET]; omega)]
  rw [readBytesLE_congr _ _ _ _ hpoint]
  unfold write_u64
  rw [readBytesLE_writeBytesLE, pow_256_8]

theorem init_num_claimed (d : ByteStore) (creator : List Nat)
    (idv total nR mode bump vbump : Nat) (exp : Int) (amounts : List Nat) :
    get_num_claimed (init_redpacket d creator idv total nR mode bump vbump exp amounts)
      = 0 := by
  unfold init_redpacket get_num_claimed
  rw [writeAmounts_outside _ _ _ _ (by simp only [NUM_CLAIMED_OFFSET]; omega)]
  unfold write_i64
  rw [writeBytesLE_outside _ _ _ _ _ (by
    simp only [EXPIRES_AT_OFFSET, NUM_CLAIMED_OFFSET]; omega)]
  rw [upd_ne _ _ _ _ (by simp only [VAULT_BUMP_OFFSET, NUM_CLAIMED_OFFSET]; omega)]
  rw [upd_ne _ _ _ _ (by simp only [BUMP_OFFSET, NUM_CLAIMED_OFFSET]; omega)]
  rw [upd_ne _ _ _ _ (by simp only [SPLIT_MODE_OFFSET, NUM_CLAIMED_OFFSET]; omega)]
  exact upd_self _ _ _

theorem init_num_recipients (d : ByteStore) (creator : List Nat)
    (idv total nR mode bump vbump : Nat) (exp : Int) (amounts : List Nat) :
    get_num_recipients (init_redpacket d creator idv total nR mode bump vbump exp amounts)
      = nR := by
  unfold init_redpacket get_num_recipients
  rw [writeAmounts_outside _ _ _ _ (by simp only [NUM_RECIPIENTS_OFFSET]; omega)]
  unfold write_i64
  rw [writeBytesLE_outside _ _ _ _ _ (by
    simp only [EXPIRES_AT_OFFSET, NUM_RECIPIENTS_OFFSET]; omega)]
  rw [upd_ne _ _ _ _ (by simp only [VAULT_BUMP_OFFSET, NUM_RECIPIENTS_OFFSET]; omega)]
  rw [upd_ne _ _ _ _ (by simp only [BUMP_OFFSET, NUM_RECIPIENTS_OFFSET]; omega)]
  rw [upd_ne _ _ _ _ (by simp only [SPLIT_MODE_OFFSET, NUM_RECIPIENTS_OFFSET]; omega)]
  rw [upd_ne _ _ _ _ (by simp only [NUM_CLAIMED_OFFSET, NUM_RECIPIENTS_OFFSET]; omega)]
  exact upd_self _ _ _

theorem init_amount_at (d : ByteStore) (creator : List Nat)
    (idv total nR mode bump vbump : Nat) (exp : Int) (amounts : List Nat) (j : Nat)
    (hj : j < amounts.length) :
    get_amount_at (init_redpacket d creator idv total nR mode bump vbump exp amounts) j
      = amounts.getD j 0 % 2 ^ 64 := by
  unfold init_redpacket
  have h := get_amount_at_writeAmounts amounts
    (write_i64
      (upd (upd (upd (upd (upd
        (write_u64 (write_u64 (write_u64
          (writeRange (upd d DISCRIMINATOR_OFFSET REDPACKET_DISCRIMINATOR)
            CREATOR_OFFSET creator)
          ID_OFFSET idv) TOTAL_AMOUNT_OFFSET total) REMAINING_AMOUNT_OFFSET total)
        NUM_RECIPIENTS_OFFSET nR) NUM_CLAIMED_OFFSET 0)
        SPLIT_MODE_OFFSET mode) BUMP_OFFSET bump) VAULT_BUMP_OFFSET vbump)
      EXPIRES_AT_OFFSET exp)
    0 j hj
  simpa using h

/-! Sum lemmas for the claimed prefix of the amounts array. -/

theorem claimedSum_zero (d : ByteStore) : claimedSum d 0 = 0 := rfl

theorem claimedSum_succ (d : ByteStore) (k : Nat) :
    claimedSum d (k + 1) = claimedSum d k + get_amount_at d k := by
  unfold claimedSum
  rw [List.range_succ]
  simp

theorem claimedSum_congr (d₁ d₂ : ByteStore) (k : Nat)
    (h : ∀ i, i < k → get_amount_at d₁ i = get_amount_at d₂ i) :
    claimedSum d₁ k = claimedSum d₂ k := by
  unfold claimedSum
  rw [List.map_congr_left (fun i hi => h i (by simpa [List.mem_range] using hi))]

/-- The first two writes of a successful claim (claimer slot and claim count)
do not touch the remaining-amount field. -/
theorem two_writes_remaining (d : ByteStore) (nR i c : Nat) (a : List Nat) :
    get_remaining_amount (set_num_claimed (set_claimer_at d nR i a) c)
      = get_remaining_amount d := by
  have hco : 70 ≤ claimers_offset nR := claimers_offset_ge nR
  unfold get_remaining_amount read_u64 REMAINING_AMOUNT_OFFSET
  apply readBytesLE_congr
  intro j hj1 hj2
  unfold set_num_claimed NUM_CLAIMED_OFFSET
  rw [upd_ne _ _ _ _ (by omega)]
  unfold set_claimer_at
  exact writeRange_outside _ _ _ _ (Or.inl (by omega))

/-! Validator characterizations. -/

theorem validate_token_type_eq_ok (t : Nat) :
    validate_token_type t = .ok () ↔ (t = TOKEN_TYPE_SPL ∨ t = TOKEN_TYPE_SOL) := by
  unfold validate_token_type
  split <;> simp_all

theorem validate_redpacket_eq_ok (a : AccountView) (pid : List Nat) :
    validate_redpacket a pid = .ok () ↔
      (a.owner = pid ∧ REDPACKET_BASE_SIZE ≤ a.dataLen ∧
        a.data DISCRIMINATOR_OFFSET = REDPACKET_DISCRIMINATOR) := by
  unfold validate_redpacket
  split
  · simp_all
  · split
    · simp_all
    · split <;> simp_all

theorem validate_treasury_eq_ok (a : AccountView) (pid : List Nat) :
    validate_treasury a pid = .ok () ↔
      (a.owner = pid ∧ TREASURY_SIZE ≤ a.dataLen ∧
        a.data 0 = TREASURY_DISCRIMINATOR) := by
  unfold validate_treasury
  split
  · simp_all
  · split
    · simp_all
    · split <;> simp_all

/-- Inversion of a successful claim: every check passed and the outcome is
exactly the three record writes plus the value movement of claim.rs. -/
theorem processClaimCore_ok (derive : DeriveFn) (tt : Nat)
    (claimer rp vault tp : AccountView) (stt : Nat) (now : Int) (out : ClaimOutcome)
    (h : processClaimCore derive tt claimer rp vault tp stt now = .ok out) :
    stt = tt ∧
    claimer.isSigner = true ∧
    rp.owner = ID ∧ REDPACKET_BASE_SIZE ≤ rp.dataLen ∧
    rp.data DISCRIMINATOR_OFFSET = REDPACKET_DISCRIMINATOR ∧
    derive [VAULT_SEED, get_creator rp.data, natToBytesLE 8 (get_id rp.data),
      [get_vault_bump rp.data]] = some vault.address ∧
    now < get_expires_at rp.data ∧
    get_num_claimed rp.data < get_num_recipients rp.data ∧
    has_claimed rp.data (get_num_recipients rp.data) (get_num_claimed rp.data)
      claimer.address = false ∧
    out.paid = get_amount_at rp.data (get_num_claimed rp.data) ∧
    out.paid ≤ get_remaining_amount rp.data ∧
    out.rpData = set_remaining_amount
      (set_num_claimed
        (set_claimer_at rp.data (get_num_recipients rp.data) (get_num_claimed rp.data)
          claimer.address)
        ((get_num_claimed rp.data + 1) % 256))
      (get_remaining_amount rp.data - out.paid) ∧
    (tt = TOKEN_TYPE_SOL →
      vault.owner = ID ∧ out.paid ≤ vault.lamports ∧
      out.vaultLamports = vault.lamports - out.paid ∧
      out.claimerLamports = claimer.lamports + out.paid) ∧
    (tt ≠ TOKEN_TYPE_SOL →
      tp.address = TOKEN_PROGRAM_ID ∧
      out.vaultLamports = vault.lamports ∧ out.claimerLamports = claimer.lamports) := by
  unfold processClaimCore at h
  by_cases h1 : tt ≠ TOKEN_TYPE_SOL ∧ tp.address ≠ TOKEN_PROGRAM_ID
  · rw [if_pos h1] at h; exact absurd h (by simp)
  · rw [if_neg h1] at h
    by_cases h2 : claimer.isSigner = false
    · rw [if_pos h2] at h; exact absurd h (by simp)
    · rw [if_neg h2] at h
      cases hv : validate_redpacket rp ID with
      | error e => rw [hv] at h; exact absurd h (by simp)
      | ok u =>
        cases u
        rw [hv] at h
        simp only [] at h
        rw [validate_redpacket_eq_ok] at hv
        by_cases h3 : stt ≠ tt
        · rw [if_pos h3] at h; exact absurd h (by simp)
        · rw [if_neg h3] at h
          cases hd : derive [VAULT_SEED, get_creator rp.data,
              natToBytesLE 8 (get_id rp.data), [get_vault_bump rp.data]] with
          | none => rw [hd] at h; exact absurd h (by simp)
          | some ev =>
            rw [hd] at h
            simp only [] at h
            by_cases h4 : vault.address ≠ ev
            · rw [if_pos h4] at h; exact absurd h (by simp)
            · rw [if_neg h4] at h
              by_cases h5 : get_expires_at rp.data ≤ now
              · rw [if_pos h5] at h; exact absurd h (by simp)
              · rw [if_neg h5] at h
                by_cases h6 : get_num_recipients rp.data ≤ get_num_claimed rp.data
                · rw [if_pos h6] at h; exact absurd h (by simp)
                · rw [if_neg h6] at h
                  by_cases h7 : has_claimed rp.data (get_num_recipients rp.data)
                      (get_num_claimed rp.data) claimer.address = true
                  · rw [if_pos h7] at h; exact absurd h (by simp)
                  · rw [if_neg h7] at h
                    have hrem : get_remaining_amount
                        (set_num_claimed
                          (set_claimer_at rp.data (get_num_recipients rp.data)
                            (get_num_claimed rp.data) claimer.address)
                          ((get_num_claimed rp.data + 1) % 256))
                        = get_remaining_amount rp.data := two_writes_remaining _ _ _ _ _
                    by_cases hsol : tt = TOKEN_TYPE_SOL
                    · rw [if_pos hsol] at h
                      by_cases h8 : vault.owner ≠ ID
                      · rw [if_pos h8] at h
                        simp only [] at h
                        exact absurd h (by simp)
                      · rw [if_neg h8] at h
                        unfold checked_sub checked_add at h
                        by_cases h9 : get_amount_at rp.data (get_num_claimed rp.data)
                            ≤ vault.lamports
                        · rw [if_pos h9] at h
                          simp only [] at h
                          by_cases h10 : claimer.lamports
                              + get_amount_at rp.data (get_num_claimed rp.data) < 2 ^ 64
                          · rw [if_pos h10] at h
                            simp only [] at h
                            rw [hrem] at h
                            by_cases h11 : get_amount_at rp.data (get_num_claimed rp.data)
                                ≤ get_remaining_amount rp.data
                            · rw [if_pos h11] at h
                              simp only [] at h
                              rw [Except.ok.injEq] at h
                              subst h
                              refine ⟨by omega, by simpa using h2, hv.1, hv.2.1, hv.2.2,
                                by push_neg at h4; rw [h4],
                                by omega, by omega, by simpa using h7, rfl, h11, rfl,
                                fun _ => ⟨by simpa using h8, h9, rfl, rfl⟩,
                                fun hns => absurd hsol hns⟩
                            · rw [if_neg h11] at h
                              simp only [] at h
                              exact absurd h (by simp)
                          · rw [if_neg h10] at h
                            simp only [] at h
                            exact absurd h (by simp)
                        · rw [if_neg h9] at h
                          simp only [] at h
                          exact absurd h (by simp)
                    · rw [if_neg hsol] at h
                      simp only [] at h
                      unfold checked_sub at h
                      rw [hrem] at h
                      by_cases h11 : get_amount_at rp.data (get_num_claimed rp.data)
                          ≤ get_remaining_amount rp.data
                      · rw [if_pos h11] at h
                        simp only [] at h
                        rw [Except.ok.injEq] at h
                        subst h
                        refine ⟨by omega, by simpa using h2, hv.1, hv.2.1, hv.2.2,
                          by push_neg at h4; rw [h4],
                          by omega, by omega, by simpa using h7, rfl, h11, rfl, ?_, ?_⟩
                        · intro hs; exact absurd hs hsol
                        · intro _
                          push_neg at h1
                          exact ⟨h1 hsol, rfl, rfl⟩
                      · rw [if_neg h11] at h
                        simp only [] at h
                        exact absurd h (by simp)

/-- C1: for every RedPacket record, Create establishes the accounting
invariant (remaining_amount = total_amount - sum of claimed slots,
remaining_amount not above total_amount, num_claimed not above
num_recipients) via init_redpacket, and every successful Claim preserves it;
the u64/u8 typing of the stored fields enters as explicit bounds. -/
theorem C1_redpacket_invariant :
    (∀ (d : ByteStore) (creator : List Nat) (idv total nR mode bump vbump : Nat)
        (exp : Int) (amounts : List Nat),
      RPInv (init_redpacket d creator idv total nR mode bump vbump exp amounts)) ∧
    (∀ (derive : DeriveFn) (tt : Nat) (claimer rp vault tp : AccountView)
        (stt : Nat) (now : Int) (out : ClaimOutcome),
      get_total_amount rp.data < 2 ^ 64 →
      get_num_recipients rp.data ≤ 255 →
      RPInv rp.data →
      processClaimCore derive tt claimer rp vault tp stt now = .ok out →
      RPInv out.rpData) := by
  constructor
  · intro d creator idv total nR mode bump vbump exp amounts
    unfold RPInv
    rw [init_total, init_remaining, init_num_claimed]
    exact ⟨by rw [claimedSum_zero]; omega, le_refl _, Nat.zero_le _⟩
  · intro derive tt claimer rp vault tp stt now out htot hnR hinv hok
    obtain ⟨-, -, -, -, -, -, -, hlt, -, hpaid, hle, hout, -, -⟩ :=
      processClaimCore_ok derive tt claimer rp vault tp stt now out hok
    obtain ⟨hi1, hi2, hi3⟩ := hinv
    rw [hout]
    have hmod : (get_num_claimed rp.data + 1) % 256 = get_num_claimed rp.data + 1 :=
      Nat.mod_eq_of_lt (by omega)
    have hrem' := claimUpdate_remaining rp.data (get_num_recipients rp.data)
      (get_num_claimed rp.data) ((get_num_claimed rp.data + 1) % 256)
      (get_remaining_amount rp.data - out.paid) claimer.address
    have hremeq : get_remaining_amount
        (set_remaining_amount
          (set_num_claimed
            (set_claimer_at rp.data (get_num_recipients rp.data)
              (get_num_claimed rp.data) claimer.address)
            ((get_num_claimed rp.data + 1) % 256))
          (get_remaining_amount rp.data - out.paid))
        = get_remaining_amount rp.data - out.paid := by
      rw [hrem', Nat.mod_eq_of_lt (by omega)]
    have htot' := claimUpdate_total rp.data (get_num_recipients rp.data)
      (get_num_claimed rp.data) ((get_num_claimed rp.data + 1) % 256)
      (get_remaining_amount rp.data - out.paid) claimer.address
    have hnR' := claimUpdate_num_recipients rp.data (get_num_recipients rp.data)
      (get_num_claimed rp.data) ((get_num_claimed rp.data + 1) % 256)
      (get_remaining_amount rp.data - out.paid) claimer.address
    have hnc' := claimUpdate_num_claimed rp.data (get_num_recipients rp.data)
      (get_num_claimed rp.data) ((get_num_claimed rp.data + 1) % 256)
      (get_remaining_amount rp.data - out.paid) claimer.address
    have hsum : claimedSum
        (set_remaining_amount
          (set_num_claimed
            (set_claimer_at rp.data (get_num_recipients rp.data)
              (get_num_claimed rp.data) claimer.address)
            (get_num_claimed rp.data + 1))
          (get_remaining_amount rp.data - out.paid))
        (get_num_claimed rp.data + 1)
        = claimedSum rp.data (get_num_claimed rp.data)
          + get_amount_at rp.data (get_num_claimed rp.data) := by
      rw [claimedSum_congr _ rp.data (get_num_claimed rp.data + 1)
        (fun i hi => claimUpdate_amount_at rp.data (get_num_recipients rp.data)
          (get_num_claimed rp.data) (get_num_claimed rp.data + 1)
          (get_remaining_amount rp.data - out.paid) i claimer.address (by omega))]
      exact claimedSum_succ rp.data (get_num_claimed rp.data)
    unfold RPInv
    rw [hremeq, htot', hnR', hnc', hmod, hsum]
    omega

/-! Concrete test fixtures used by witnesses and counterexamples. -/

def zeroStore : ByteStore := fun _ => 0

def testCreator : List Nat := List.replicate 32 9

def testClaimerA : List Nat := List.replicate 32 2

def testVaultAddr : List Nat := List.replicate 32 7

def testDerive : DeriveFn := fun _ => some testVaultAddr

/-- A two-recipient record: total 100, amounts [60, 40], expires at 50. -/
def testRPd2 : ByteStore := init_redpacket zeroStore testCreator 7 100 2 0 4 3 50 [60, 40]

/-- A one-recipient record: total 5, amounts [5], expires at 50. -/
def testRPd1 : ByteStore := init_redpacket zeroStore testCreator 7 5 1 0 4 3 50 [5]

def testClaimer : AccountView :=
  { address := testClaimerA, owner := SYSTEM_PROGRAM_ID, lamports := 10,
    data := zeroStore, dataLen := 0, isSigner := true }

def testRP2 : AccountView :=
  { address := List.replicate 32 8, owner := ID, lamports := 100,
    data := testRPd2, dataLen := redpacket_size 2, isSigner := false }

def testRP1 : AccountView :=
  { address := List.replicate 32 8, owner := ID, lamports := 100,
    data := testRPd1, dataLen := redpacket_size 1, isSigner := false }

def testVault : AccountView :=
  { address := testVaultAddr, owner := ID, lamports := 500,
    data := zeroStore, dataLen := 0, isSigner := false }

def testClaimOut2 : ClaimOutcome :=
  { rpData := set_remaining_amount
      (set_num_claimed (set_claimer_at testRPd2 2 0 testClaimerA) (1 % 256)) (100 - 60),
    claimerLamports := 70, vaultLamports := 440, paid := 60 }

/-- Witness for C1 at a concrete record: the invariant after Create, and its
preservation through a concrete successful claim. -/
theorem C1_redpacket_invariant_witness :
    RPInv (init_redpacket zeroStore testCreator 7 100 2 0 4 3 50 [60, 40]) ∧
    (get_total_amount testRP2.data < 2 ^ 64 ∧ get_num_recipients testRP2.data ≤ 255 ∧
      RPInv testRP2.data ∧
      processClaimCore testDerive 1 testClaimer testRP2 testVault defaultAccount 1 0
        = .ok testClaimOut2 ∧
      RPInv testClaimOut2.rpData) := by
  have hok : processClaimCore testDerive 1 testClaimer testRP2 testVault defaultAccount 1 0
      = .ok testClaimOut2 := by rfl
  refine ⟨C1_redpacket_invariant.1 zeroStore testCreator 7 100 2 0 4 3 50 [60, 40],
    by decide, by decide, by unfold RPInv; decide, hok,
    C1_redpacket_invariant.2 testDerive 1 testClaimer testRP2 testVault defaultAccount
      1 0 testClaimOut2 (by decide) (by decide) (by unfold RPInv; decide) hok⟩

theorem has_claimed_iff (d : ByteStore) (nR k : Nat) (a : List Nat) :
    has_claimed d nR k a = true ↔ ∃ i, i < k ∧ get_claimer_at d nR i = a := by
  unfold has_claimed
  rw [List.any_eq_true]
  constructor
  · rintro ⟨i, hi, hp⟩
    exact ⟨i, by simpa [List.mem_range] using hi, by simpa using hp⟩
  · rintro ⟨i, hi, hp⟩
    exact ⟨i, by simpa [List.mem_range] using hi, by simpa using hp⟩

def testClaimOut1 : ClaimOutcome :=
  { rpData := set_remaining_amount
      (set_num_claimed (set_claimer_at testRPd1 1 0 testClaimerA) (1 % 256)) (5 - 5),
    claimerLamports := 15, vaultLamports := 495, paid := 5 }

/-- Counterexample to C2 as stated: on a one-recipient red packet the first
claim succeeds, and the second claim by the same claimer under identical
conditions fails with RedPacketFull (the capacity check precedes the
duplicate-claimer scan), not with AlreadyClaimed. -/
theorem C2_second_claim_redpacketfull_counterexample :
    processClaimCore testDerive 1 testClaimer testRP1 testVault defaultAccount 1 0
      = .ok testClaimOut1 ∧
    processClaimCore testDerive 1
      { testClaimer with lamports := testClaimOut1.claimerLamports }
      { testRP1 with data := testClaimOut1.rpData }
      { testVault with lamports := testClaimOut1.vaultLamports } defaultAccount 1 0
      = .error RedPacketError.RedPacketFull ∧
    RedPacketError.RedPacketFull ≠ RedPacketError.AlreadyClaimed := by
  refine ⟨by rfl, by rfl, by decide⟩

/-- C2 amended: after a successful claim, a second claim by the same claimer
against the same record never succeeds; it fails with AlreadyClaimed whenever
the expiry and capacity checks still pass, and a failed claim leaves the
record unchanged (the handler returns an error and writes nothing). -/
theorem C2_second_claim_rejected (derive : DeriveFn) (tt : Nat)
    (claimer rp vault tp : AccountView) (stt : Nat) (now now₂ : Int)
    (out : ClaimOutcome)
    (hlen : claimer.address.length = 32)
    (hnR : get_num_recipients rp.data ≤ 255)
    (hok : processClaimCore derive tt claimer rp vault tp stt now = .ok out) :
    (∀ out₂, processClaimCore derive tt
        { claimer with lamports := out.claimerLamports }
        { rp with data := out.rpData }
        { vault with lamports := out.vaultLamports } tp stt now₂ ≠ .ok out₂) ∧
    (now₂ < get_expires_at rp.data →
      get_num_claimed rp.data + 1 < get_num_recipients rp.data →
      processClaimCore derive tt
        { claimer with lamports := out.claimerLamports }
        { rp with data := out.rpData }
        { vault with lamports := out.vaultLamports } tp stt now₂
        = .error RedPacketError.AlreadyClaimed) := by
  obtain ⟨hstt, hsig, hown, hdl, hdisc, hder, hexp, hlt, hscan, hpaid, hle, hout,
    hsolf, hsplf⟩ := processClaimCore_ok derive tt claimer rp vault tp stt now out hok
  have hmod : (get_num_claimed rp.data + 1) % 256 = get_num_claimed rp.data + 1 :=
    Nat.mod_eq_of_lt (by omega)
  rw [hmod] at hout
  have hTP : ¬(tt ≠ TOKEN_TYPE_SOL ∧ tp.address ≠ TOKEN_PROGRAM_ID) := by
    rintro ⟨hne, hnaddr⟩
    exact hnaddr (hsplf hne).1
  have hval : validate_redpacket { rp with data := out.rpData } ID = .ok () := by
    rw [validate_redpacket_eq_ok]
    refine ⟨hown, hdl, ?_⟩
    show out.rpData DISCRIMINATOR_OFFSET = REDPACKET_DISCRIMINATOR
    rw [hout, claimUpdate_disc]
    exact hdisc
  have hsc : has_claimed out.rpData (get_num_recipients rp.data)
      (get_num_claimed rp.data + 1) claimer.address = true := by
    rw [has_claimed_iff]
    refine ⟨get_num_claimed rp.data, by omega, ?_⟩
    rw [hout, claimUpdate_claimer_at]
    exact set_claimer_at_self rp.data (get_num_recipients rp.data)
      (get_num_claimed rp.data) claimer.address hlen
  have key : processClaimCore derive tt
      { claimer with lamports := out.claimerLamports }
      { rp with data := out.rpData }
      { vault with lamports := out.vaultLamports } tp stt now₂
      = (if get_expires_at rp.data ≤ now₂ then Except.error RedPacketError.Expired
         else if get_num_recipients rp.data ≤ get_num_claimed rp.data + 1 then
           Except.error RedPacketError.RedPacketFull
         else Except.error RedPacketError.AlreadyClaimed) := by
    unfold processClaimCore
    rw [if_neg hTP]
    dsimp only
    rw [hsig]
    rw [if_neg (by simp : ¬ (true = false))]
    rw [hval]
    dsimp only
    rw [if_neg (by omega : ¬ stt ≠ tt)]
    rw [hout, claimUpdate_creator, claimUpdate_id, claimUpdate_vault_bump, ← hout]
    rw [hder]
    dsimp only
    rw [if_neg (by exact fun hh => hh rfl : ¬ vault.address ≠ vault.address)]
    rw [hout, claimUpdate_expires, claimUpdate_num_claimed, claimUpdate_num_recipients,
      ← hout]
    simp only [hsc, if_true]
  constructor
  · intro out₂
    rw [key]
    split
    · simp
    · split <;> simp
  · intro hnexp hnfull
    rw [key, if_neg (by omega), if_neg (by omega)]

/-- Witness for the amended C2 at a concrete two-recipient record: the first
claim succeeds and the immediate second claim fails with AlreadyClaimed. -/
theorem C2_second_claim_rejected_witness :
    testClaimer.address.length = 32 ∧
    get_num_recipients testRP2.data ≤ 255 ∧
    processClaimCore testDerive 1 testClaimer testRP2 testVault defaultAccount 1 0
      = .ok testClaimOut2 ∧
    processClaimCore testDerive 1
      { testClaimer with lamports := testClaimOut2.claimerLamports }
      { testRP2 with data := testClaimOut2.rpData }
      { testVault with lamports := testClaimOut2.vaultLamports } defaultAccount 1 0
      = .error RedPacketError.AlreadyClaimed := by
  refine ⟨by decide, by decide, by rfl, ?_⟩
  exact (C2_second_claim_rejected testDerive 1 testClaimer testRP2 testVault
    defaultAccount 1 0 0 testClaimOut2 (by decide) (by decide) (by rfl)).2
    (by decide) (by decide)

/-- C4: a successful claim pays exactly the precomputed slot amount
amounts[num_claimed], appends the claimer at index num_claimed, increments
num_claimed by one and decreases remaining_amount by exactly the payout;
and the claim handler result depends on the instruction payload only through
its leading asset-kind byte. -/
theorem C4_claim_pays_slot_amount :
    (∀ (derive : DeriveFn) (tt : Nat) (claimer rp vault tp : AccountView)
        (stt : Nat) (now : Int) (out : ClaimOutcome),
      claimer.address.length = 32 →
      get_remaining_amount rp.data < 2 ^ 64 →
      get_num_recipients rp.data ≤ 255 →
      processClaimCore derive tt claimer rp vault tp stt now = .ok out →
      out.paid = get_amount_at rp.data (get_num_claimed rp.data) ∧
      get_claimer_at out.rpData (get_num_recipients rp.data) (get_num_claimed rp.data)
        = claimer.address ∧
      get_num_claimed out.rpData = get_num_claimed rp.data + 1 ∧
      get_remaining_amount out.rpData = get_remaining_amount rp.data - out.paid ∧
      (tt = TOKEN_TYPE_SOL →
        out.vaultLamports = vault.lamports - out.paid ∧
        out.claimerLamports = claimer.lamports + out.paid)) ∧
    (∀ (derive : DeriveFn) (accounts : List AccountView) (b : Nat)
        (rest₁ rest₂ : List Nat) (stt : Nat) (now : Int),
      processClaim derive accounts (b :: rest₁) stt now
        = processClaim derive accounts (b :: rest₂) stt now) := by
  constructor
  · intro derive tt claimer rp vault tp stt now out hlen hrem hnR hok
    obtain ⟨hstt, hsig, hown, hdl, hdisc, hder, hexp, hlt, hscan, hpaid, hle, hout,
      hsolf, hsplf⟩ := processClaimCore_ok derive tt claimer rp vault tp stt now out hok
    refine ⟨hpaid, ?_, ?_, ?_, fun hs => ⟨(hsolf hs).2.2.1, (hsolf hs).2.2.2⟩⟩
    · rw [hout, claimUpdate_claimer_at]
      exact set_claimer_at_self rp.data (get_num_recipients rp.data)
        (get_num_claimed rp.data) claimer.address hlen
    · rw [hout, claimUpdate_num_claimed, Nat.mod_eq_of_lt (by omega)]
    · rw [hout, claimUpdate_remaining, Nat.mod_eq_of_lt (by omega)]
  · intro derive accounts b rest₁ rest₂ stt now
    rfl

/-- Witness for C4 at a concrete record: the first claim of the two-recipient
fixture pays slot 0 (60 units) and updates the record accordingly. -/
theorem C4_claim_pays_slot_amount_witness :
    testClaimer.address.length = 32 ∧
    get_remaining_amount testRP2.data < 2 ^ 64 ∧
    get_num_recipients testRP2.data ≤ 255 ∧
    processClaimCore testDerive 1 testClaimer testRP2 testVault defaultAccount 1 0
      = .ok testClaimOut2 ∧
    (testClaimOut2.paid = get_amount_at testRP2.data (get_num_claimed testRP2.data) ∧
      get_claimer_at testClaimOut2.rpData (get_num_recipients testRP2.data)
        (get_num_claimed testRP2.data) = testClaimer.address ∧
      get_num_claimed testClaimOut2.rpData = get_num_claimed testRP2.data + 1 ∧
      get_remaining_amount testClaimOut2.rpData
        = get_remaining_amount testRP2.data - testClaimOut2.paid ∧
      (1 = TOKEN_TYPE_SOL →
        testClaimOut2.vaultLamports = testVault.lamports - testClaimOut2.paid ∧
        testClaimOut2.claimerLamports = testClaimer.lamports + testClaimOut2.paid)) := by
  refine ⟨by decide, by decide, by decide, by rfl, ?_⟩
  exact C4_claim_pays_slot_amount.1 testDerive 1 testClaimer testRP2 testVault
    defaultAccount 1 0 testClaimOut2 (by decide) (by decide) (by decide) (by rfl)

/-! Record size and layout (C5). -/

/-- Counterexample to C5 as stated: the allocated record size of constants.rs
is REDPACKET_BASE_SIZE + 40 N = 71 + 40 N, not 70 + 40 N. -/
theorem C5_size_counterexample : ¬ (redpacket_size 1 = 70 + 40 * 1) := by decide

/-- C5 amended: for every recipient count in range the allocated byte size is
exactly 71 + 40 N, and the field offsets are the ones of the state.rs layout
(discriminator 0, creator 1, id 33, total 41, remaining 49, num_recipients 57,
num_claimed 58, split_mode 59, bump 60, vault_bump 61, expires_at 62,
amounts 70). -/
theorem C5_record_layout (n : Nat) (h1 : 1 ≤ n) (h2 : n ≤ 20) :
    redpacket_size n = 71 + 40 * n ∧
    DISCRIMINATOR_OFFSET = 0 ∧ CREATOR_OFFSET = 1 ∧ ID_OFFSET = 33 ∧
    TOTAL_AMOUNT_OFFSET = 41 ∧ REMAINING_AMOUNT_OFFSET = 49 ∧
    NUM_RECIPIENTS_OFFSET = 57 ∧ NUM_CLAIMED_OFFSET = 58 ∧
    SPLIT_MODE_OFFSET = 59 ∧ BUMP_OFFSET = 60 ∧ VAULT_BUMP_OFFSET = 61 ∧
    EXPIRES_AT_OFFSET = 62 ∧ AMOUNTS_OFFSET = 70 := by
  refine ⟨?_, rfl, rfl, rfl, rfl, rfl, rfl, rfl, rfl, rfl, rfl, rfl, rfl⟩
  unfold redpacket_size REDPACKET_BASE_SIZE PER_RECIPIENT_SIZE
  omega

/-- Witness for the amended C5 at one recipient: 71 + 40 = 111 bytes. -/
theorem C5_record_layout_witness :
    1 ≤ 1 ∧ (1 : Nat) ≤ 20 ∧ redpacket_size 1 = 71 + 40 * 1 := by
  exact ⟨by decide, by decide, (C5_record_layout 1 (by decide) (by decide)).1⟩

/-! Even split (C8) and fee (C9), from create.rs. -/

/-- Even-mode split of process_create: every slot gets total / n and the last
slot additionally receives the remainder total % n (checked addition). -/
def evenSplit (total n : Nat) : Except PErr (List Nat) :=
  let per_person := total / n
  let remainder := total % n
  match checked_add per_person remainder with
  | none => .error .ArithmeticOverflow
  | some last => .ok (List.replicate (n - 1) per_person ++ [last])

/-- Fee computation of process_create: max(1, total * 10 / 10000) over a
checked multiplication. -/
def createFee (total : Nat) : Except PErr Nat :=
  match checked_mul total FEE_RATE_BPS with
  | none => .error .ArithmeticOverflow
  | some p => .ok (max 1 (p / FEE_DENOMINATOR))

/-- C8: the even split always succeeds for a u64 total and its slots sum
exactly to the total; in particular 1000000 over 3 recipients gives
[333333, 333333, 333334]. -/
theorem C8_even_split_exact (total n : Nat) (h1 : 1 ≤ total) (h2 : total < 2 ^ 64)
    (h3 : 1 ≤ n) (h4 : n ≤ 20) :
    evenSplit total n
      = .ok (List.replicate (n - 1) (total / n) ++ [total / n + total % n]) ∧
    (List.replicate (n - 1) (total / n) ++ [total / n + total % n]).sum = total ∧
    evenSplit 1000000 3 = .ok [333333, 333333, 333334] := by
  have hd := Nat.div_add_mod total n
  obtain ⟨m, rfl⟩ : ∃ m, n = m + 1 := ⟨n - 1, by omega⟩
  have hmul : (m + 1) * (total / (m + 1)) = m * (total / (m + 1)) + total / (m + 1) :=
    Nat.succ_mul m (total / (m + 1))
  have hq : total / (m + 1) ≤ (m + 1) * (total / (m + 1)) :=
    Nat.le_mul_of_pos_left _ (by omega)
  refine ⟨?_, ?_, by rfl⟩
  · unfold evenSplit checked_add
    dsimp only
    rw [if_pos (by omega)]
  · rw [List.sum_append, List.sum_replicate, smul_eq_mul]
    simp only [Nat.add_sub_cancel, List.sum_cons, List.sum_nil]
    omega

/-- Witness for C8 at total 1000000 and three recipients. -/
theorem C8_even_split_exact_witness :
    1 ≤ 1000000 ∧ 1000000 < 2 ^ 64 ∧ 1 ≤ 3 ∧ (3 : Nat) ≤ 20 ∧
    evenSplit 1000000 3
      = .ok (List.replicate (3 - 1) (1000000 / 3) ++ [1000000 / 3 + 1000000 % 3]) := by
  exact ⟨by decide, by decide, by decide, by decide,
    (C8_even_split_exact 1000000 3 (by decide) (by decide) (by decide) (by decide)).1⟩

/-- Counterexample to C9 as stated: at the largest u64 deposit the checked
multiplication overflows and Create aborts with ArithmeticOverflow instead of
charging max(1, total * 10 / 10000). -/
theorem C9_fee_overflow_counterexample :
    createFee (2 ^ 64 - 1) = .error .ArithmeticOverflow ∧
    Except.error .ArithmeticOverflow
      ≠ (.ok (max 1 ((2 ^ 64 - 1) * 10 / 10000)) : Except PErr Nat) := by
  constructor
  · rfl
  · intro hc
    exact Except.noConfusion hc

/-- C9 amended: whenever total * 10 fits in u64 the fee is exactly
max(1, total * 10 / 10000), hence at least one unit; for total = 5 it is 1.
Larger totals abort with ArithmeticOverflow before any fee is charged. -/
theorem C9_fee_formula (total : Nat) (h1 : 1 ≤ total) (h2 : total * 10 < 2 ^ 64) :
    createFee total = .ok (max 1 (total * 10 / 10000)) ∧
    1 ≤ max 1 (total * 10 / 10000) ∧
    createFee 5 = .ok 1 := by
  refine ⟨?_, le_max_left _ _, by rfl⟩
  unfold createFee checked_mul
  simp only [FEE_RATE_BPS, FEE_DENOMINATOR]
  rw [if_pos h2]

/-- Witness for the amended C9 at total 5: fee 1, never 0. -/
theorem C9_fee_formula_witness :
    1 ≤ 5 ∧ 5 * 10 < 2 ^ 64 ∧ createFee 5 = .ok (max 1 (5 * 10 / 10000)) := by
  exact ⟨by decide, by decide, (C9_fee_formula 5 (by decide) (by decide)).1⟩

/-! Random split generation (C6), from blinks/src/program.rs
generate_random_split.  The f64 cut points enter the source only through the
values (cut * total).floor() as u64; these floors are the model's input (the
randomness, treated as an input), so floating point itself is not modeled:
for sorted cuts in [0, 1) the floors are a nondecreasing chain from 0 bounded
by the total. -/

/-- Interior slot loop: for each cut, the difference of consecutive floors,
clamped below at one unit; prev carries the previous floor. -/
def interiorSlots : Nat → List Nat → List Nat
  | _, [] => []
  | prev, f :: fs => (if f - prev < 1 then 1 else f - prev) :: interiorSlots f fs

/-- In-place modification of the last element (amounts.last_mut()). -/
def setLast (l : List Nat) (f : Nat → Nat) : List Nat :=
  match l with
  | [] => []
  | [a] => [f a]
  | a :: rest => a :: setLast rest f

/-- Final adjustment so the slots sum exactly: pad the last slot upward, or
saturating-subtract the overshoot from it. -/
def adjustLast (amounts : List Nat) (total : Nat) : List Nat :=
  if amounts.sum = total then amounts
  else if amounts.sum < total then
    setLast amounts (fun last => last + (total - amounts.sum))
  else
    setLast amounts (fun last => last - (amounts.sum - total))

/-- generate_random_split over the cut-point floors: empty for zero
recipients, the whole total for one, otherwise interior slots from
consecutive floor differences plus a saturating last slot, then the final
sum adjustment. -/
def generate_random_split (total n : Nat) (floors : List Nat) : List Nat :=
  if n = 0 then []
  else if n = 1 then [total]
  else adjustLast (interiorSlots 0 floors ++ [total - floors.getLastD 0]) total

theorem interiorSlots_length :
    ∀ (fs : List Nat) (prev : Nat), (interiorSlots prev fs).length = fs.length := by
  intro fs
  induction fs with
  | nil => intro prev; rfl
  | cons f fs ih =>
    intro prev
    show ((if f - prev < 1 then 1 else f - prev) :: interiorSlots f fs).length
      = fs.length + 1
    simp [ih]

theorem setLast_concat :
    ∀ (l : List Nat) (a : Nat) (f : Nat → Nat), setLast (l ++ [a]) f = l ++ [f a] := by
  intro l
  induction l with
  | nil => intro a f; rfl
  | cons b l ih =>
    intro a f
    cases l with
    | nil => rfl
    | cons c l2 =>
      show b :: setLast ((c :: l2) ++ [a]) f = b :: ((c :: l2) ++ [f a])
      rw [ih]

theorem list_getLastD_concat :
    ∀ (l : List Nat) (a d : Nat), (l ++ [a]).getLastD d = a := by
  intro l
  induction l with
  | nil => intro a d; rfl
  | cons b l ih =>
    intro a d
    show ((b :: l) ++ [a]).getLastD d = a
    rw [List.cons_append, List.getLastD_cons]
    exact ih a b

theorem interiorSlots_sum_ge (T : Nat) :
    ∀ (fs : List Nat) (prev : Nat), List.Chain (· ≤ ·) prev fs →
      (∀ f ∈ fs, f ≤ T) →
      T - prev ≤ (interiorSlots prev fs).sum + (T - fs.getLastD prev) := by
  intro fs
  induction fs with
  | nil => intro prev _ _; simp [interiorSlots]
  | cons f fs ih =>
    intro prev hchain hub
    have hpf : prev ≤ f := (List.chain_cons.mp hchain).1
    have hfT : f ≤ T := hub f (by simp)
    have hrec := ih f (List.chain_cons.mp hchain).2
      (fun g hg => hub g (by simp [hg]))
    show T - prev ≤ ((if f - prev < 1 then 1 else f - prev)
      :: interiorSlots f fs).sum + (T - (f :: fs).getLastD prev)
    rw [List.sum_cons, List.getLastD_cons]
    have hclamp : f - prev ≤ (if f - prev < 1 then 1 else f - prev) := by
      split <;> omega
    omega

/-- Counterexample to C6 as stated: with total 1, three recipients and both
cut-point floors at 0 (cuts at 0.0), the interior clamps force [1, 1, 1],
the saturating adjustment clips the last slot to zero, and the result
[1, 1, 0] sums to 2, not to the deposit 1. -/
theorem C6_saturation_counterexample :
    generate_random_split 1 3 [0, 0] = [1, 1, 0] ∧
    (generate_random_split 1 3 [0, 0]).sum ≠ 1 := by
  constructor
  · rfl
  · decide

/-- C6 amended: for every deposit, recipient count n and sorted bounded
cut-point floors, generate_random_split returns exactly n amounts whose sum
is at least the deposit; the sum equals the deposit unless the final
saturating adjustment clips the last slot to zero, in which case the sum
exceeds it. -/
theorem C6_random_split_shape (total n : Nat) (floors : List Nat)
    (h1 : 1 ≤ total) (h2 : 1 ≤ n) (hlen : floors.length = n - 1)
    (hchain : List.Chain (· ≤ ·) 0 floors) (hub : ∀ f ∈ floors, f ≤ total) :
    (generate_random_split total n floors).length = n ∧
    total ≤ (generate_random_split total n floors).sum ∧
    ((generate_random_split total n floors).sum ≠ total →
      (generate_random_split total n floors).getLastD 1 = 0) := by
  unfold generate_random_split
  rw [if_neg (by omega)]
  by_cases hn1 : n = 1
  · rw [if_pos hn1]
    refine ⟨by simp [hn1], by simp, fun hc => absurd (by simp) hc⟩
  · rw [if_neg hn1]
    have hge : total - 0 ≤ (interiorSlots 0 floors).sum
        + (total - floors.getLastD 0) :=
      interiorSlots_sum_ge total floors 0 hchain hub
    have hlenA : (interiorSlots 0 floors).length = floors.length :=
      interiorSlots_length floors 0
    have hsum0 : (interiorSlots 0 floors ++ [total - floors.getLastD 0]).sum
        = (interiorSlots 0 floors).sum + (total - floors.getLastD 0) := by
      rw [List.sum_append]
      simp
    unfold adjustLast
    by_cases hse : (interiorSlots 0 floors ++ [total - floors.getLastD 0]).sum = total
    · rw [if_pos hse]
      refine ⟨by simp [hlenA, hlen]; omega, by omega, fun hc => absurd hse hc⟩
    · rw [if_neg hse]
      rw [if_neg (by omega)]
      rw [setLast_concat]
      refine ⟨by simp [hlenA, hlen]; omega, ?_, ?_⟩
      · rw [List.sum_append]
        simp only [List.sum_cons, List.sum_nil]
        omega
      · intro hne
        rw [list_getLastD_concat]
        rw [List.sum_append] at hne
        simp only [List.sum_cons, List.sum_nil] at hne
        omega

/-- Witness for the amended C6: total 10 over three recipients with floors
[3, 7] gives [3, 4, 3], exactly summing to 10. -/
theorem C6_random_split_shape_witness :
    1 ≤ 10 ∧ 1 ≤ 3 ∧ ([3, 7] : List Nat).length = 3 - 1 ∧
    List.Chain (· ≤ ·) 0 [3, 7] ∧ (∀ f ∈ ([3, 7] : List Nat), f ≤ 10) ∧
    (generate_random_split 10 3 [3, 7]).length = 3 ∧
    10 ≤ (generate_random_split 10 3 [3, 7]).sum := by
  have hch : List.Chain (· ≤ ·) 0 [3, 7] := by
    simp [List.chain_cons]
  have h := C6_random_split_shape 10 3 [3, 7] (by decide) (by decide) (by decide)
    hch (by decide)
  exact ⟨by decide, by decide, by decide, hch, by decide, h.1, h.2.1⟩

/-! Close handler, from programs/solana-redpacket/src/instructions/close.rs.
As for claim, the stored asset-kind byte is passed as storedTokenType
(modelled from the spec, since src/state.rs lacks get_token_type).  The
fungible-path token transfer and CloseAccount are CPIs into the token
program: the outcome records the transferred token amount in splTransfer and
the vault storage deposit flowing to the creator as lamports. -/

structure CloseOutcome where
  rpData : ByteStore
  creatorLamports : Nat
  vaultLamports : Nat
  rpLamports : Nat
  splTransfer : Nat

/-- Zero out every byte of the record storage (the destructive wipe). -/
def zeroData (len : Nat) (d : ByteStore) : ByteStore :=
  fun i => if i < len then 0 else d i

/-- Core of the close handler, after account resolution. -/
def processCloseCore (derive : DeriveFn) (token_type : Nat)
    (creator red_packet vault token_program_acct : AccountView)
    (storedTokenType : Nat) (now : Int) : Except PErr CloseOutcome :=
  if token_type ≠ TOKEN_TYPE_SOL ∧ token_program_acct.address ≠ TOKEN_PROGRAM_ID then
    .error RedPacketError.InvalidTokenProgram
  else if creator.isSigner = false then .error .MissingRequiredSignature
  else
    match validate_redpacket red_packet ID with
    | .error e => .error e
    | .ok _ =>
      let d := red_packet.data
      if storedTokenType ≠ token_type then .error RedPacketError.InvalidTokenType
      else if get_creator d ≠ creator.address then .error RedPacketError.Unauthorized
      else
        let num_recipients := get_num_recipients d
        let num_claimed := get_num_claimed d
        let expires_at := get_expires_at d
        let vault_bump := get_vault_bump d
        let remaining_amount := get_remaining_amount d
        let creator_bytes := get_creator d
        let id_bytes := natToBytesLE 8 (get_id d)
        match derive [VAULT_SEED, creator_bytes, id_bytes, [vault_bump]] with
        | none => .error RedPacketError.InvalidPDA
        | some expected_vault =>
          if vault.address ≠ expected_vault then .error RedPacketError.InvalidPDA
          else if ¬ (num_recipients ≤ num_claimed) ∧ ¬ (expires_at ≤ now) then
            .error RedPacketError.NotExpiredOrFull
          else if token_type = TOKEN_TYPE_SOL then
            if vault.owner ≠ ID then .error RedPacketError.InvalidAccountOwner
            else
              match (if 0 < vault.lamports then
                  checked_add creator.lamports vault.lamports
                else some creator.lamports) with
              | none => .error .ArithmeticOverflow
              | some c1 =>
                match checked_add c1 red_packet.lamports with
                | none => .error .ArithmeticOverflow
                | some c2 =>
                  .ok { rpData := zeroData red_packet.dataLen d,
                        creatorLamports := c2, vaultLamports := 0,
                        rpLamports := 0, splTransfer := 0 }
          else
            match checked_add (creator.lamports + vault.lamports)
                red_packet.lamports with
            | none => .error .ArithmeticOverflow
            | some c2 =>
              .ok { rpData := zeroData red_packet.dataLen d,
                    creatorLamports := c2, vaultLamports := 0,
                    rpLamports := 0, splTransfer := remaining_amount }

/-- Close handler entry: parses the asset-kind byte, checks the account count
and resolves the account indices of close.rs, then runs the core. -/
def processClose (derive : DeriveFn) (accounts : List AccountView) (instr : List Nat)
    (storedTokenType : Nat) (now : Int) : Except PErr CloseOutcome :=
  match instr with
  | [] => .error .InvalidInstructionData
  | t :: _ =>
    let token_type := t % 256
    match validate_token_type token_type with
    | .error e => .error e
    | .ok _ =>
      if accounts.length < (if token_type = TOKEN_TYPE_SOL then 3 else 5) then
        .error RedPacketError.NotEnoughAccounts
      else
        processCloseCore derive token_type (accounts.getD 0 defaultAccount)
          (accounts.getD (if token_type = TOKEN_TYPE_SOL then 1 else 2) defaultAccount)
          (accounts.getD (if token_type = TOKEN_TYPE_SOL then 2 else 3) defaultAccount)
          (accounts.getD 4 defaultAccount) storedTokenType now

def testCreatorAcct : AccountView :=
  { address := testCreator, owner := SYSTEM_PROGRAM_ID, lamports := 20,
    data := zeroStore, dataLen := 0, isSigner := true }

/-- C3: with the preceding validation passing, Close fails with
NotExpiredOrFull exactly when the packet is neither fully claimed nor
expired; when its checks pass it moves the entire vault balance plus the
record balance to the creator, zeroes every byte of the record storage and
leaves both drained accounts at zero (on the fungible path it additionally
transfers the remaining token amount to the creator). -/
theorem C3_close_expiry_gate (derive : DeriveFn) (tt : Nat)
    (creator rp vault tp : AccountView) (stt : Nat) (now : Int)
    (hTP : ¬(tt ≠ TOKEN_TYPE_SOL ∧ tp.address ≠ TOKEN_PROGRAM_ID))
    (hsig : creator.isSigner = true)
    (hown : rp.owner = ID) (hdl : REDPACKET_BASE_SIZE ≤ rp.dataLen)
    (hdisc : rp.data DISCRIMINATOR_OFFSET = REDPACKET_DISCRIMINATOR)
    (hstt : stt = tt)
    (hcr : get_creator rp.data = creator.address)
    (hder : derive [VAULT_SEED, get_creator rp.data, natToBytesLE 8 (get_id rp.data),
      [get_vault_bump rp.data]] = some vault.address) :
    (processCloseCore derive tt creator rp vault tp stt now
        = .error RedPacketError.NotExpiredOrFull ↔
      (get_num_claimed rp.data < get_num_recipients rp.data ∧
        now < get_expires_at rp.data)) ∧
    (∀ out, processCloseCore derive tt creator rp vault tp stt now = .ok out →
      (∀ i, i < rp.dataLen → out.rpData i = 0) ∧
      out.rpLamports = 0 ∧ out.vaultLamports = 0 ∧
      out.creatorLamports = creator.lamports + vault.lamports + rp.lamports ∧
      (tt ≠ TOKEN_TYPE_SOL → out.splTransfer = get_remaining_amount rp.data)) := by
  have key : processCloseCore derive tt creator rp vault tp stt now =
      (if ¬(get_num_recipients rp.data ≤ get_num_claimed rp.data)
          ∧ ¬(get_expires_at rp.data ≤ now) then
        Except.error RedPacketError.NotExpiredOrFull
      else if tt = TOKEN_TYPE_SOL then
        if vault.owner ≠ ID then Except.error RedPacketError.InvalidAccountOwner
        else
          match (if 0 < vault.lamports then
              checked_add creator.lamports vault.lamports
            else some creator.lamports) with
          | none => Except.error PErr.ArithmeticOverflow
          | some c1 =>
            match checked_add c1 rp.lamports with
            | none => Except.error PErr.ArithmeticOverflow
            | some c2 =>
              Except.ok ⟨zeroData rp.dataLen rp.data, c2, 0, 0, 0⟩
      else
        match checked_add (creator.lamports + vault.lamports) rp.lamports with
        | none => Except.error PErr.ArithmeticOverflow
        | some c2 =>
          Except.ok ⟨zeroData rp.dataLen rp.data, c2, 0, 0,
            get_remaining_amount rp.data⟩) := by
    unfold processCloseCore
    rw [if_neg hTP]
    rw [hsig, if_neg (by simp : ¬ (true = false))]
    have hval : validate_redpacket rp ID = .ok () := by
      rw [validate_redpacket_eq_ok]
      exact ⟨hown, hdl, hdisc⟩
    rw [hval]
    dsimp only
    rw [if_neg (by omega : ¬ stt ≠ tt)]
    rw [if_neg (by rw [hcr]; exact fun hh => hh rfl)]
    rw [hder]
    dsimp only
    rw [if_neg (fun hh => hh rfl : ¬ vault.address ≠ vault.address)]
  constructor
  · rw [key]
    constructor
    · intro he
      by_cases hc : ¬(get_num_recipients rp.data ≤ get_num_claimed rp.data)
          ∧ ¬(get_expires_at rp.data ≤ now)
      · exact ⟨by omega, by omega⟩
      · exfalso
        rw [if_neg hc] at he
        by_cases htt : tt = TOKEN_TYPE_SOL
        · rw [if_pos htt] at he
          by_cases hvo : vault.owner ≠ ID
          · rw [if_pos hvo] at he
            rw [Except.error.injEq] at he
            exact absurd he (by decide)
          · rw [if_neg hvo] at he
            unfold checked_add at he
            by_cases hv0 : 0 < vault.lamports
            · rw [if_pos hv0] at he
              by_cases hof : creator.lamports + vault.lamports < 2 ^ 64
              · rw [if_pos hof] at he
                dsimp only at he
                by_cases hof2 : creator.lamports + vault.lamports + rp.lamports < 2 ^ 64
                · rw [if_pos hof2] at he
                  exact Except.noConfusion he
                · rw [if_neg hof2] at he
                  rw [Except.error.injEq] at he
                  exact absurd he (by decide)
              · rw [if_neg hof] at he
                rw [Except.error.injEq] at he
                exact absurd he (by decide)
            · rw [if_neg hv0] at he
              dsimp only at he
              by_cases hof2 : creator.lamports + rp.lamports < 2 ^ 64
              · rw [if_pos hof2] at he
                exact Except.noConfusion he
              · rw [if_neg hof2] at he
                rw [Except.error.injEq] at he
                exact absurd he (by decide)
        · rw [if_neg htt] at he
          unfold checked_add at he
          by_cases hof2 : creator.lamports + vault.lamports + rp.lamports < 2 ^ 64
          · rw [if_pos hof2] at he
            exact Except.noConfusion he
          · rw [if_neg hof2] at he
            rw [Except.error.injEq] at he
            exact absurd he (by decide)
    · rintro ⟨ha, hb⟩
      rw [if_pos ⟨by omega, by omega⟩]
  · intro out hok
    rw [key] at hok
    by_cases hc : ¬(get_num_recipients rp.data ≤ get_num_claimed rp.data)
        ∧ ¬(get_expires_at rp.data ≤ now)
    · rw [if_pos hc] at hok
      exact Except.noConfusion hok
    · rw [if_neg hc] at hok
      by_cases htt : tt = TOKEN_TYPE_SOL
      · rw [if_pos htt] at hok
        by_cases hvo : vault.owner ≠ ID
        · rw [if_pos hvo] at hok
          exact Except.noConfusion hok
        · rw [if_neg hvo] at hok
          unfold checked_add at hok
          by_cases hv0 : 0 < vault.lamports
          · rw [if_pos hv0] at hok
            by_cases hof : creator.lamports + vault.lamports < 2 ^ 64
            · rw [if_pos hof] at hok
              dsimp only at hok
              by_cases hof2 : creator.lamports + vault.lamports + rp.lamports < 2 ^ 64
              · rw [if_pos hof2] at hok
                dsimp only at hok
                rw [Except.ok.injEq] at hok
                subst hok
                exact ⟨fun i hi => by simp [zeroData, hi], rfl, rfl, rfl,
                  fun hns => absurd htt hns⟩
              · rw [if_neg hof2] at hok
                exact Except.noConfusion hok
            · rw [if_neg hof] at hok
              exact Except.noConfusion hok
          · rw [if_neg hv0] at hok
            dsimp only at hok
            by_cases hof2 : creator.lamports + rp.lamports < 2 ^ 64
            · rw [if_pos hof2] at hok
              dsimp only at hok
              rw [Except.ok.injEq] at hok
              subst hok
              exact ⟨fun i hi => by simp [zeroData, hi], rfl, rfl, by dsimp only; omega,
                fun hns => absurd htt hns⟩
            · rw [if_neg hof2] at hok
              exact Except.noConfusion hok
      · rw [if_neg htt] at hok
        unfold checked_add at hok
        by_cases hof2 : creator.lamports + vault.lamports + rp.lamports < 2 ^ 64
        · rw [if_pos hof2] at hok
          dsimp only at hok
          rw [Except.ok.injEq] at hok
          subst hok
          exact ⟨fun i hi => by simp [zeroData, hi], rfl, rfl, rfl, fun _ => rfl⟩
        · rw [if_neg hof2] at hok
          exact Except.noConfusion hok

/-- Witness for C3: on the concrete two-recipient record before expiry with
no claims, Close fails with NotExpiredOrFull. -/
theorem C3_close_expiry_gate_witness :
    ¬((1 : Nat) ≠ TOKEN_TYPE_SOL ∧ defaultAccount.address ≠ TOKEN_PROGRAM_ID) ∧
    testCreatorAcct.isSigner = true ∧ testRP2.owner = ID ∧
    REDPACKET_BASE_SIZE ≤ testRP2.dataLen ∧
    testRP2.data DISCRIMINATOR_OFFSET = REDPACKET_DISCRIMINATOR ∧
    get_creator testRP2.data = testCreatorAcct.address ∧
    processCloseCore testDerive 1 testCreatorAcct testRP2 testVault defaultAccount 1 0
      = .error RedPacketError.NotExpiredOrFull := by
  refine ⟨by decide, by decide, by decide, by decide, by decide, by decide, ?_⟩
  exact (C3_close_expiry_gate testDerive 1 testCreatorAcct testRP2 testVault
    defaultAccount 1 0 (by decide) (by decide) (by decide) (by decide) (by decide)
    rfl (by decide) (by rfl)).1.mpr ⟨by decide, by decide⟩

/-! WithdrawFees handler, from withdraw_fees.rs.  The native path debits the
treasury record balance and the fees counter; the fungible path transfers
from the treasury vault token account via CPI, recorded as the withdrawn
amount. -/

structure WithdrawOutcome where
  treasuryData : ByteStore
  adminLamports : Nat
  treasuryLamports : Nat
  withdrawn : Nat

/-- Native-asset arm of withdraw_fees.rs: availability is the minimum of the
fee counter and the treasury balance above the rent floor; a zero request
means withdraw all available. -/
def withdrawNativePath (derive : DeriveFn) (admin treasury : AccountView)
    (amount : Nat) : Except PErr WithdrawOutcome :=
  match validate_treasury treasury ID with
  | .error e => .error e
  | .ok _ =>
    match derive [TREASURY_SEED, NATIVE_SOL_MINT,
        [get_treasury_bump treasury.data]] with
    | none => .error RedPacketError.InvalidPDA
    | some expected =>
      if treasury.address ≠ expected then .error RedPacketError.InvalidPDA
      else
        let sol_fees := get_sol_fees_collected treasury.data
        let available := min sol_fees (treasury.lamports - rent_exempt TREASURY_SIZE)
        let withdraw_amount := if amount = 0 then available else amount
        if withdraw_amount = 0 then
          .error RedPacketError.InsufficientTreasuryBalance
        else if available < withdraw_amount then
          .error RedPacketError.InsufficientTreasuryBalance
        else
          match checked_sub treasury.lamports withdraw_amount with
          | none => .error .ArithmeticOverflow
          | some tl =>
            match checked_add admin.lamports withdraw_amount with
            | none => .error .ArithmeticOverflow
            | some al =>
              match checked_sub sol_fees withdraw_amount with
              | none => .error .ArithmeticOverflow
              | some fl =>
                .ok ⟨set_sol_fees_collected treasury.data fl, al, tl,
                  withdraw_amount⟩

/-- Fungible-asset arm of withdraw_fees.rs: availability is the treasury
vault token balance (token-account amount field at offset 64); the transfer
itself is a CPI recorded as the withdrawn amount. -/
def withdrawFungiblePath (derive : DeriveFn)
    (admin admin_token treasury treasury_vault token_program : AccountView)
    (amount : Nat) : Except PErr WithdrawOutcome :=
  if token_program.address ≠ TOKEN_PROGRAM_ID then
    .error RedPacketError.InvalidTokenProgram
  else
    match validate_treasury treasury ID with
    | .error e => .error e
    | .ok _ =>
      let mint := get_treasury_mint treasury.data
      match derive [TREASURY_SEED, mint, [get_treasury_bump treasury.data]] with
      | none => .error RedPacketError.InvalidPDA
      | some expected =>
        if treasury.address ≠ expected then .error RedPacketError.InvalidPDA
        else
          match derive [TREASURY_VAULT_SEED, mint,
              [get_treasury_vault_bump treasury.data]] with
          | none => .error RedPacketError.InvalidPDA
          | some expected_tv =>
            if treasury_vault.address ≠ expected_tv then
              .error RedPacketError.InvalidPDA
            else if treasury_vault.dataLen < 72 then
              .error RedPacketError.InvalidTokenAccount
            else
              let vault_balance := read_u64 treasury_vault.data 64
              let withdraw_amount := if amount = 0 then vault_balance else amount
              if withdraw_amount = 0 then
                .error RedPacketError.InsufficientTreasuryBalance
              else if vault_balance < withdraw_amount then
                .error RedPacketError.InsufficientTreasuryBalance
              else
                .ok ⟨treasury.data, admin.lamports, treasury.lamports,
                  withdraw_amount⟩

def processWithdrawFees (derive : DeriveFn) (accounts : List AccountView)
    (instr : List Nat) : Except PErr WithdrawOutcome :=
  if instr.length < 9 then .error .InvalidInstructionData
  else
    let token_type := instr.getD 0 0 % 256
    match validate_token_type token_type with
    | .error e => .error e
    | .ok _ =>
      let amount := listReadLE instr 1 8
      if accounts.length < (if token_type = TOKEN_TYPE_SOL then 2 else 5) then
        .error RedPacketError.NotEnoughAccounts
      else
        let admin := accounts.getD 0 defaultAccount
        if admin.isSigner = false then .error .MissingRequiredSignature
        else if admin.address ≠ ADMIN then .error RedPacketError.UnauthorizedAdmin
        else if token_type = TOKEN_TYPE_SOL then
          withdrawNativePath derive admin (accounts.getD 1 defaultAccount) amount
        else
          withdrawFungiblePath derive admin (accounts.getD 1 defaultAccount)
            (accounts.getD 2 defaultAccount) (accounts.getD 3 defaultAccount)
            (accounts.getD 4 defaultAccount) amount

@[simp] def TREASURY_DISCRIMINATOR_OFFSET : Nat := 0

/-- Initialize a Treasury record (state.rs init_treasury): discriminator,
bump, vault bump and the 32-byte accepted mint. -/
def init_treasury (d : ByteStore) (bump vault_bump : Nat) (mint : List Nat) :
    ByteStore :=
  writeRange
    (upd (upd (upd d TREASURY_DISCRIMINATOR_OFFSET TREASURY_DISCRIMINATOR)
      TREASURY_BUMP_OFFSET bump) TREASURY_VAULT_BUMP_OFFSET vault_bump)
    TREASURY_MINT_OFFSET mint

def testAdmin : AccountView :=
  { address := ADMIN, owner := SYSTEM_PROGRAM_ID, lamports := 100,
    data := zeroStore, dataLen := 0, isSigner := true }

/-- A treasury holding no withdrawable fees: zero counter and a balance at
exactly the rent floor. -/
def testTreasury : AccountView :=
  { address := testVaultAddr, owner := ID, lamports := rent_exempt TREASURY_SIZE,
    data := init_treasury zeroStore 6 5 (List.replicate 32 1), dataLen := 43,
    isSigner := false }

/-- Counterexample to C7 as stated: with the administrator signing and every
check passing but nothing available (zero fee counter, balance at the rent
floor), a requested amount of 0 does not withdraw the available amount 0 -
the handler fails with InsufficientTreasuryBalance instead. -/
theorem C7_zero_available_counterexample :
    testAdmin.address = ADMIN ∧
    min (get_sol_fees_collected testTreasury.data)
      (testTreasury.lamports - rent_exempt TREASURY_SIZE) = 0 ∧
    processWithdrawFees testDerive [testAdmin, testTreasury]
      [1, 0, 0, 0, 0, 0, 0, 0, 0]
      = .error RedPacketError.InsufficientTreasuryBalance := by
  exact ⟨rfl, by decide, by rfl⟩

/-- Non-admin signers are rejected with UnauthorizedAdmin (helper for C7). -/
theorem C7aux_unauthorized :
    ∀ (derive : DeriveFn) (admin : AccountView) (rest : List AccountView)
        (instr : List Nat),
      9 ≤ instr.length →
      (instr.getD 0 0 % 256 = TOKEN_TYPE_SPL ∨ instr.getD 0 0 % 256 = TOKEN_TYPE_SOL) →
      4 ≤ rest.length →
      admin.isSigner = true → admin.address ≠ ADMIN →
      processWithdrawFees derive (admin :: rest) instr
        = .error RedPacketError.UnauthorizedAdmin := by
    intro derive admin rest instr hlen htt hrest hsig hadm
    unfold processWithdrawFees
    rw [if_neg (by omega)]
    cases htt with
    | inl h0 =>
      rw [h0]
      dsimp only
      rw [show validate_token_type TOKEN_TYPE_SPL = Except.ok () from rfl]
      dsimp only
      rw [if_neg (by decide : ¬ (TOKEN_TYPE_SPL = TOKEN_TYPE_SOL))]
      rw [if_neg (show ¬ ((admin :: rest).length < 5) by
        simp only [List.length_cons]; omega)]
      rw [List.getD_cons_zero]
      rw [hsig, if_neg (by simp : ¬ (true = false))]
      rw [if_pos hadm]
    | inr h1 =>
      rw [h1]
      dsimp only
      rw [show validate_token_type TOKEN_TYPE_SOL = Except.ok () from rfl]
      dsimp only
      rw [if_pos (rfl : TOKEN_TYPE_SOL = TOKEN_TYPE_SOL)]
      rw [if_neg (show ¬ ((admin :: rest).length < 2) by
        simp only [List.length_cons]; omega)]
      rw [List.getD_cons_zero]
      rw [hsig, if_neg (by simp : ¬ (true = false))]
      rw [if_pos hadm]

/-- With a SOL-type payload and the admin checks passing, the handler
dispatches to the native path. -/
theorem withdraw_dispatch_sol (derive : DeriveFn) (admin treasury : AccountView)
    (instr : List Nat) (hlen : 9 ≤ instr.length)
    (htt : instr.getD 0 0 % 256 = TOKEN_TYPE_SOL)
    (hsig : admin.isSigner = true) (hadm : admin.address = ADMIN) :
    processWithdrawFees derive [admin, treasury] instr
      = withdrawNativePath derive admin treasury (listReadLE instr 1 8) := by
  unfold processWithdrawFees
  rw [if_neg (show ¬ (instr.length < 9) by omega)]
  rw [htt]
  dsimp only
  rw [show validate_token_type TOKEN_TYPE_SOL = Except.ok () from rfl]
  dsimp only
  rw [if_pos (rfl : TOKEN_TYPE_SOL = TOKEN_TYPE_SOL)]
  rw [if_neg (show ¬ ((admin :: [treasury]).length < 2) by
    simp only [List.length_cons]; omega)]
  rw [List.getD_cons_zero]
  rw [hsig, if_neg (by simp : ¬ (true = false))]
  rw [if_neg (show ¬ (admin.address ≠ ADMIN) by
    rw [hadm]; exact fun hh => hh rfl)]
  rw [if_pos (rfl : TOKEN_TYPE_SOL = TOKEN_TYPE_SOL)]
  rw [List.getD_cons_succ, List.getD_cons_zero]

/-- Evaluation of the native withdraw path once the treasury account and its
PDA check out: the availability tests and the three checked arithmetic
steps, phrased for any name wa of the effective withdraw amount. -/
theorem withdrawNativePath_eq (derive : DeriveFn) (admin treasury : AccountView)
    (amount : Nat) (hval : validate_treasury treasury ID = .ok ())
    (hder : derive [TREASURY_SEED, NATIVE_SOL_MINT,
      [get_treasury_bump treasury.data]] = some treasury.address)
    (wa : Nat)
    (hwa : wa = (if amount = 0 then
        min (get_sol_fees_collected treasury.data)
          (treasury.lamports - rent_exempt TREASURY_SIZE)
      else amount)) :
    withdrawNativePath derive admin treasury amount =
    (if wa = 0 then Except.error RedPacketError.InsufficientTreasuryBalance
     else if min (get_sol_fees_collected treasury.data)
         (treasury.lamports - rent_exempt TREASURY_SIZE) < wa then
       Except.error RedPacketError.InsufficientTreasuryBalance
     else
       match checked_sub treasury.lamports wa with
       | none => Except.error PErr.ArithmeticOverflow
       | some tl =>
         match checked_add admin.lamports wa with
         | none => Except.error PErr.ArithmeticOverflow
         | some al =>
           match checked_sub (get_sol_fees_collected treasury.data) wa with
           | none => Except.error PErr.ArithmeticOverflow
           | some fl =>
             Except.ok ⟨set_sol_fees_collected treasury.data fl, al, tl, wa⟩) := by
  unfold withdrawNativePath
  rw [hval]
  dsimp only
  rw [hder]
  dsimp only
  rw [if_neg (fun hh => hh rfl : ¬ treasury.address ≠ treasury.address)]
  rw [← hwa]

/-- Native-path availability behavior of WithdrawFees (helper for C7). -/
theorem C7aux_native :
    ∀ (derive : DeriveFn) (admin treasury : AccountView) (instr : List Nat),
      9 ≤ instr.length → instr.getD 0 0 % 256 = TOKEN_TYPE_SOL →
      admin.isSigner = true → admin.address = ADMIN →
      treasury.owner = ID → TREASURY_SIZE ≤ treasury.dataLen →
      treasury.data 0 = TREASURY_DISCRIMINATOR →
      derive [TREASURY_SEED, NATIVE_SOL_MINT, [get_treasury_bump treasury.data]]
        = some treasury.address →
      (listReadLE instr 1 8 = 0 →
        0 < min (get_sol_fees_collected treasury.data)
          (treasury.lamports - rent_exempt TREASURY_SIZE) →
        admin.lamports + min (get_sol_fees_collected treasury.data)
          (treasury.lamports - rent_exempt TREASURY_SIZE) < 2 ^ 64 →
        processWithdrawFees derive [admin, treasury] instr
          = .ok ⟨set_sol_fees_collected treasury.data
              (get_sol_fees_collected treasury.data
                - min (get_sol_fees_collected treasury.data)
                  (treasury.lamports - rent_exempt TREASURY_SIZE)),
            admin.lamports + min (get_sol_fees_collected treasury.data)
              (treasury.lamports - rent_exempt TREASURY_SIZE),
            treasury.lamports - min (get_sol_fees_collected treasury.data)
              (treasury.lamports - rent_exempt TREASURY_SIZE),
            min (get_sol_fees_collected treasury.data)
              (treasury.lamports - rent_exempt TREASURY_SIZE)⟩) ∧
      (listReadLE instr 1 8 ≠ 0 →
        min (get_sol_fees_collected treasury.data)
          (treasury.lamports - rent_exempt TREASURY_SIZE) < listReadLE instr 1 8 →
        processWithdrawFees derive [admin, treasury] instr
          = .error RedPacketError.InsufficientTreasuryBalance) := by
    intro derive admin treasury instr hlen htt hsig hadm hto htl htd hder
    have hval : validate_treasury treasury ID = .ok () := by
      rw [validate_treasury_eq_ok]
      exact ⟨hto, htl, htd⟩
    have hdisp := withdraw_dispatch_sol derive admin treasury instr hlen htt hsig hadm
    constructor
    · intro hz hpos hof
      rw [hdisp, withdrawNativePath_eq derive admin treasury (listReadLE instr 1 8)
        hval hder (min (get_sol_fees_collected treasury.data)
          (treasury.lamports - rent_exempt TREASURY_SIZE)) (by rw [hz]; rw [if_pos rfl])]
      rw [if_neg (show ¬ (min (get_sol_fees_collected treasury.data)
          (treasury.lamports - rent_exempt TREASURY_SIZE) = 0) by omega)]
      rw [if_neg (show ¬ (min (get_sol_fees_collected treasury.data)
          (treasury.lamports - rent_exempt TREASURY_SIZE)
          < min (get_sol_fees_collected treasury.data)
            (treasury.lamports - rent_exempt TREASURY_SIZE)) by omega)]
      unfold checked_sub checked_add
      rw [if_pos (show min (get_sol_fees_collected treasury.data)
          (treasury.lamports - rent_exempt TREASURY_SIZE) ≤ treasury.lamports by
        omega)]
      dsimp only
      rw [if_pos (show admin.lamports + min (get_sol_fees_collected treasury.data)
          (treasury.lamports - rent_exempt TREASURY_SIZE) < 2 ^ 64 from hof)]
      dsimp only
      rw [if_pos (show min (get_sol_fees_collected treasury.data)
          (treasury.lamports - rent_exempt TREASURY_SIZE)
          ≤ get_sol_fees_collected treasury.data by omega)]
    · intro hnz hgt
      rw [hdisp, withdrawNativePath_eq derive admin treasury (listReadLE instr 1 8)
        hval hder (listReadLE instr 1 8) (by rw [if_neg hnz])]
      by_cases hz : listReadLE instr 1 8 = 0
      · exact absurd hz hnz
      · rw [if_neg hz, if_pos hgt]

/-- Fungible-path availability behavior of WithdrawFees (helper for C7). -/
theorem C7aux_fungible :
    ∀ (derive : DeriveFn) (admin admin_token treasury treasury_vault
        token_program : AccountView) (instr : List Nat),
      9 ≤ instr.length → instr.getD 0 0 % 256 = TOKEN_TYPE_SPL →
      admin.isSigner = true → admin.address = ADMIN →
      token_program.address = TOKEN_PROGRAM_ID →
      treasury.owner = ID → TREASURY_SIZE ≤ treasury.dataLen →
      treasury.data 0 = TREASURY_DISCRIMINATOR →
      derive [TREASURY_SEED, get_treasury_mint treasury.data,
        [get_treasury_bump treasury.data]] = some treasury.address →
      derive [TREASURY_VAULT_SEED, get_treasury_mint treasury.data,
        [get_treasury_vault_bump treasury.data]] = some treasury_vault.address →
      72 ≤ treasury_vault.dataLen →
      (listReadLE instr 1 8 = 0 →
        0 < read_u64 treasury_vault.data 64 →
        processWithdrawFees derive
          [admin, admin_token, treasury, treasury_vault, token_program] instr
          = .ok ⟨treasury.data, admin.lamports, treasury.lamports,
              read_u64 treasury_vault.data 64⟩) ∧
      (listReadLE instr 1 8 ≠ 0 →
        read_u64 treasury_vault.data 64 < listReadLE instr 1 8 →
        processWithdrawFees derive
          [admin, admin_token, treasury, treasury_vault, token_program] instr
          = .error RedPacketError.InsufficientTreasuryBalance) := by
    intro derive admin admin_token treasury treasury_vault token_program instr
      hlen htt hsig hadm htp hto htl htd hder hdertv htvl
    have hval : validate_treasury treasury ID = .ok () := by
      rw [validate_treasury_eq_ok]
      exact ⟨hto, htl, htd⟩
    have key : ∀ wa : Nat, wa = (if listReadLE instr 1 8 = 0 then
          read_u64 treasury_vault.data 64 else listReadLE instr 1 8) →
        processWithdrawFees derive
          [admin, admin_token, treasury, treasury_vault, token_program] instr =
        (if wa = 0 then Except.error RedPacketError.InsufficientTreasuryBalance
         else if read_u64 treasury_vault.data 64 < wa then
           Except.error RedPacketError.InsufficientTreasuryBalance
         else Except.ok ⟨treasury.data, admin.lamports, treasury.lamports, wa⟩) := by
      intro wa hwa
      unfold processWithdrawFees
      rw [if_neg (show ¬ (instr.length < 9) by omega)]
      rw [htt]
      dsimp only
      rw [show validate_token_type TOKEN_TYPE_SPL = Except.ok () from rfl]
      dsimp only
      rw [if_neg (by decide : ¬ (TOKEN_TYPE_SPL = TOKEN_TYPE_SOL))]
      rw [if_neg (show ¬ ((admin :: [admin_token, treasury, treasury_vault,
          token_program]).length < 5) by simp only [List.length_cons]; omega)]
      rw [List.getD_cons_zero]
      rw [hsig, if_neg (by simp : ¬ (true = false))]
      rw [if_neg (show ¬ (admin.address ≠ ADMIN) by
        rw [hadm]; exact fun hh => hh rfl)]
      rw [if_neg (by decide : ¬ (TOKEN_TYPE_SPL = TOKEN_TYPE_SOL))]
      simp only [List.getD_cons_succ, List.getD_cons_zero]
      unfold withdrawFungiblePath
      rw [if_neg (show ¬ (token_program.address ≠ TOKEN_PROGRAM_ID) by
        rw [htp]; exact fun hh => hh rfl)]
      rw [hval]
      dsimp only
      rw [hder]
      dsimp only
      rw [if_neg (fun hh => hh rfl : ¬ treasury.address ≠ treasury.address)]
      rw [hdertv]
      dsimp only
      rw [if_neg (fun hh => hh rfl : ¬ treasury_vault.address ≠ treasury_vault.address)]
      rw [if_neg (show ¬ (treasury_vault.dataLen < 72) by omega)]
      rw [← hwa]
    constructor
    · intro hz hpos
      rw [key (read_u64 treasury_vault.data 64) (by rw [hz]; rw [if_pos rfl])]
      rw [if_neg (show ¬ (read_u64 treasury_vault.data 64 = 0) by omega)]
      rw [if_neg (show ¬ (read_u64 treasury_vault.data 64
          < read_u64 treasury_vault.data 64) by omega)]
    · intro hnz hgt
      rw [key (listReadLE instr 1 8) (by rw [if_neg hnz])]
      rw [if_neg hnz, if_pos hgt]



/-- C7 amended: WithdrawFees succeeds only for the fixed administrator
(UnauthorizedAdmin for any other signer); a requested amount of 0 withdraws
exactly the available amount when that amount is positive - min of the fee
counter and the balance above the rent floor for the native asset, the vault
token balance for a fungible asset - while a zero availability or any
nonzero request above availability fails with InsufficientTreasuryBalance. -/
theorem C7_withdraw_fees_admin_and_availability :
    (∀ (derive : DeriveFn) (admin : AccountView) (rest : List AccountView)
        (instr : List Nat),
      9 ≤ instr.length →
      (instr.getD 0 0 % 256 = TOKEN_TYPE_SPL ∨ instr.getD 0 0 % 256 = TOKEN_TYPE_SOL) →
      4 ≤ rest.length →
      admin.isSigner = true → admin.address ≠ ADMIN →
      processWithdrawFees derive (admin :: rest) instr
        = .error RedPacketError.UnauthorizedAdmin) ∧
    (∀ (derive : DeriveFn) (admin treasury : AccountView) (instr : List Nat),
      9 ≤ instr.length → instr.getD 0 0 % 256 = TOKEN_TYPE_SOL →
      admin.isSigner = true → admin.address = ADMIN →
      treasury.owner = ID → TREASURY_SIZE ≤ treasury.dataLen →
      treasury.data 0 = TREASURY_DISCRIMINATOR →
      derive [TREASURY_SEED, NATIVE_SOL_MINT, [get_treasury_bump treasury.data]]
        = some treasury.address →
      (listReadLE instr 1 8 = 0 →
        0 < min (get_sol_fees_collected treasury.data)
          (treasury.lamports - rent_exempt TREASURY_SIZE) →
        admin.lamports + min (get_sol_fees_collected treasury.data)
          (treasury.lamports - rent_exempt TREASURY_SIZE) < 2 ^ 64 →
        processWithdrawFees derive [admin, treasury] instr
          = .ok ⟨set_sol_fees_collected treasury.data
              (get_sol_fees_collected treasury.data
                - min (get_sol_fees_collected treasury.data)
                  (treasury.lamports - rent_exempt TREASURY_SIZE)),
            admin.lamports + min (get_sol_fees_collected treasury.data)
              (treasury.lamports - rent_exempt TREASURY_SIZE),
            treasury.lamports - min (get_sol_fees_collected treasury.data)
              (treasury.lamports - rent_exempt TREASURY_SIZE),
            min (get_sol_fees_collected treasury.data)
              (treasury.lamports - rent_exempt TREASURY_SIZE)⟩) ∧
      (listReadLE instr 1 8 ≠ 0 →
        min (get_sol_fees_collected treasury.data)
          (treasury.lamports - rent_exempt TREASURY_SIZE) < listReadLE instr 1 8 →
        processWithdrawFees derive [admin, treasury] instr
          = .error RedPacketError.InsufficientTreasuryBalance)) ∧
    (∀ (derive : DeriveFn) (admin admin_token treasury treasury_vault
        token_program : AccountView) (instr : List Nat),
      9 ≤ instr.length → instr.getD 0 0 % 256 = TOKEN_TYPE_SPL →
      admin.isSigner = true → admin.address = ADMIN →
      token_program.address = TOKEN_PROGRAM_ID →
      treasury.owner = ID → TREASURY_SIZE ≤ treasury.dataLen →
      treasury.data 0 = TREASURY_DISCRIMINATOR →
      derive [TREASURY_SEED, get_treasury_mint treasury.data,
        [get_treasury_bump treasury.data]] = some treasury.address →
      derive [TREASURY_VAULT_SEED, get_treasury_mint treasury.data,
        [get_treasury_vault_bump treasury.data]] = some treasury_vault.address →
      72 ≤ treasury_vault.dataLen →
      (listReadLE instr 1 8 = 0 →
        0 < read_u64 treasury_vault.data 64 →
        processWithdrawFees derive
          [admin, admin_token, treasury, treasury_vault, token_program] instr
          = .ok ⟨treasury.data, admin.lamports, treasury.lamports,
              read_u64 treasury_vault.data 64⟩) ∧
      (listReadLE instr 1 8 ≠ 0 →
        read_u64 treasury_vault.data 64 < listReadLE instr 1 8 →
        processWithdrawFees derive
          [admin, admin_token, treasury, treasury_vault, token_program] instr
          = .error RedPacketError.InsufficientTreasuryBalance)) :=
  ⟨C7aux_unauthorized, C7aux_native, C7aux_fungible⟩

/-- A treasury with 30 lamports of recorded fees and 50 lamports above the
rent floor. -/
def testTreasury2 : AccountView :=
  { address := testVaultAddr, owner := ID,
    lamports := rent_exempt TREASURY_SIZE + 50,
    data := set_sol_fees_collected
      (init_treasury zeroStore 6 5 (List.replicate 32 1)) 30,
    dataLen := 43, isSigner := false }

theorem C7_withdraw_fees_admin_and_availability_witness :
    min (get_sol_fees_collected testTreasury2.data)
      (testTreasury2.lamports - rent_exempt TREASURY_SIZE) = 30 ∧
    processWithdrawFees testDerive [testAdmin, testTreasury2]
      [1, 0, 0, 0, 0, 0, 0, 0, 0]
      = .ok ⟨set_sol_fees_collected testTreasury2.data
          (get_sol_fees_collected testTreasury2.data
            - min (get_sol_fees_collected testTreasury2.data)
              (testTreasury2.lamports - rent_exempt TREASURY_SIZE)),
        testAdmin.lamports + min (get_sol_fees_collected testTreasury2.data)
          (testTreasury2.lamports - rent_exempt TREASURY_SIZE),
        testTreasury2.lamports - min (get_sol_fees_collected testTreasury2.data)
          (testTreasury2.lamports - rent_exempt TREASURY_SIZE),
        min (get_sol_fees_collected testTreasury2.data)
          (testTreasury2.lamports - rent_exempt TREASURY_SIZE)⟩ :=
  ⟨by decide,
    (C7_withdraw_fees_admin_and_availability.2.1 testDerive testAdmin testTreasury2
      [1, 0, 0, 0, 0, 0, 0, 0, 0] (by decide) (by decide) rfl rfl rfl
      (by decide) (by decide) rfl).1 (by decide) (by decide) (by decide)⟩

/-! Create (create.rs), for C10. -/

/-- Result of a successful Create: the initialized record bytes, the per-slot
amounts written, and the fee transferred to the treasury vault. -/
structure CreateOutcome where
  rpData : ByteStore
  amounts : List Nat
  fee : Nat

/-- Random-mode amounts loop of process_create (create.rs lines 138-152):
reads consecutive little-endian u64 slots from the payload tail starting at
byte 28, rejects a zero slot with InvalidAmount, accumulates the sum with
checked addition, and finally requires the sum to equal total_amount. -/
def randomLoop (data : List Nat) (total : Nat) :
    Nat → Nat → Nat → Except PErr (List Nat)
  | 0, _, sum =>
    if sum ≠ total then .error RedPacketError.AmountMismatch else .ok []
  | k + 1, i, sum =>
    let a := listReadLE data (28 + 8 * i) 8
    if a = 0 then .error RedPacketError.InvalidAmount
    else
      match checked_add sum a with
      | none => .error .ArithmeticOverflow
      | some s =>
        match randomLoop data total k (i + 1) s with
        | .error e => .error e
        | .ok rest => .ok (a :: rest)

/-- process_create with the nine accounts named (create.rs): signer and
program-id checks, payload parsing, value checks in source order, the two PDA
re-derivations, treasury and mint checks, the split computation, the fee, and
the record initialization over the freshly allocated (zeroed) account. -/
def processCreateCore (derive : DeriveFn)
    (creator creator_token red_packet vault treasury treasury_vault mint
      token_program system_program : AccountView)
    (data : List Nat) (now : Int) : Except PErr CreateOutcome :=
  if creator.isSigner = false then .error .MissingRequiredSignature
  else if token_program.address ≠ TOKEN_PROGRAM_ID then
    .error RedPacketError.InvalidTokenProgram
  else if system_program.address ≠ SYSTEM_PROGRAM_ID then
    .error RedPacketError.InvalidSystemProgram
  else if data.length < 28 then .error .InvalidInstructionData
  else
    let idv := listReadLE data 0 8
    let total := listReadLE data 8 8
    let n := data.getD 16 0 % 256
    let mode := data.getD 17 0 % 256
    let expires := toI64 (listReadLE data 18 8)
    let rp_bump := data.getD 26 0 % 256
    let vault_bump := data.getD 27 0 % 256
    if total = 0 then .error RedPacketError.InvalidAmount
    else if n = 0 ∨ MAX_RECIPIENTS < n then
      .error RedPacketError.InvalidRecipientCount
    else if mode ≠ SPLIT_EVEN ∧ mode ≠ SPLIT_RANDOM then
      .error RedPacketError.InvalidSplitMode
    else if expires ≤ now then .error RedPacketError.Expired
    else
      match derive [SEED_PREFIX, creator.address, natToBytesLE 8 idv,
          [rp_bump]] with
      | none => .error RedPacketError.InvalidPDA
      | some expected_rp =>
        if red_packet.address ≠ expected_rp then .error RedPacketError.InvalidPDA
        else
          match derive [VAULT_SEED, creator.address, natToBytesLE 8 idv,
              [vault_bump]] with
          | none => .error RedPacketError.InvalidPDA
          | some expected_vault =>
            if vault.address ≠ expected_vault then
              .error RedPacketError.InvalidPDA
            else
              match validate_treasury treasury ID with
              | .error e => .error e
              | .ok _ =>
                if mint.address ≠ get_treasury_mint treasury.data then
                  .error RedPacketError.InvalidMint
                else
                  match (if mode = SPLIT_EVEN then evenSplit total n
                         else if data.length - 28 < 8 * n then
                           .error .InvalidInstructionData
                         else randomLoop data total n 0 0) with
                  | .error e => .error e
                  | .ok amounts =>
                    match createFee total with
                    | .error e => .error e
                    | .ok fee =>
                      .ok ⟨init_redpacket zeroStore creator.address idv total n
                        mode rp_bump vault_bump expires amounts, amounts, fee⟩

def processCreate (derive : DeriveFn) (accounts : List AccountView)
    (data : List Nat) (now : Int) : Except PErr CreateOutcome :=
  if accounts.length < 9 then .error RedPacketError.NotEnoughAccounts
  else
    processCreateCore derive (accounts.getD 0 defaultAccount)
      (accounts.getD 1 defaultAccount) (accounts.getD 2 defaultAccount)
      (accounts.getD 3 defaultAccount) (accounts.getD 4 defaultAccount)
      (accounts.getD 5 defaultAccount) (accounts.getD 6 defaultAccount)
      (accounts.getD 7 defaultAccount) (accounts.getD 8 defaultAccount)
      data now

/-- When the deposit is positive but below the recipient count, the even
split puts 0 in every slot except the last, which gets the whole deposit. -/
theorem evenSplit_lt (total n : Nat) (h2 : total < n) (h3 : total < 2 ^ 64) :
    evenSplit total n = .ok (List.replicate (n - 1) 0 ++ [total]) := by
  unfold evenSplit
  rw [Nat.div_eq_of_lt h2, Nat.mod_eq_of_lt h2]
  dsimp only
  unfold checked_add
  rw [if_pos (show 0 + total < 2 ^ 64 by omega)]
  dsimp only
  rw [Nat.zero_add]

/-- For small deposits the fee bottoms out at the minimum of 1. -/
theorem createFee_small (total : Nat) (h2 : total ≤ 999) :
    createFee total = .ok 1 := by
  unfold createFee
  unfold checked_mul
  rw [if_pos (show total * FEE_RATE_BPS < 2 ^ 64 by
    simp only [FEE_RATE_BPS]; omega)]
  dsimp only
  rw [show total * FEE_RATE_BPS / FEE_DENOMINATOR = 0 from Nat.div_eq_of_lt (by
    simp only [FEE_RATE_BPS, FEE_DENOMINATOR]; omega)]
  rfl

theorem replicate_append_getD (k t i : Nat) (h : i < k) :
    (List.replicate k 0 ++ [t]).getD i 0 = 0 := by
  induction k generalizing i with
  | zero => omega
  | succ m ih =>
    rw [List.replicate_succ, List.cons_append]
    cases i with
    | zero => rfl
    | succ j =>
      rw [List.getD_cons_succ]
      exact ih j (by omega)

/-- With every account-side check of Create passing and an Even-mode payload,
the handler reduces to the even split followed by the fee computation. -/
theorem processCreate_even_eq (derive : DeriveFn)
    (creator creator_token red_packet vault treasury treasury_vault mint
      token_program system_program : AccountView)
    (data : List Nat) (now : Int)
    (hsig : creator.isSigner = true)
    (htp : token_program.address = TOKEN_PROGRAM_ID)
    (hsp : system_program.address = SYSTEM_PROGRAM_ID)
    (h28 : 28 ≤ data.length)
    (hm : data.getD 17 0 % 256 = SPLIT_EVEN)
    (hpos : 0 < listReadLE data 8 8)
    (hlt : listReadLE data 8 8 < data.getD 16 0 % 256)
    (hn20 : data.getD 16 0 % 256 ≤ MAX_RECIPIENTS)
    (hexp : now < toI64 (listReadLE data 18 8))
    (hderp : derive [SEED_PREFIX, creator.address,
      natToBytesLE 8 (listReadLE data 0 8), [data.getD 26 0 % 256]]
      = some red_packet.address)
    (hderv : derive [VAULT_SEED, creator.address,
      natToBytesLE 8 (listReadLE data 0 8), [data.getD 27 0 % 256]]
      = some vault.address)
    (hval : validate_treasury treasury ID = .ok ())
    (hmint : mint.address = get_treasury_mint treasury.data) :
    processCreate derive [creator, creator_token, red_packet, vault, treasury,
      treasury_vault, mint, token_program, system_program] data now
      = (match evenSplit (listReadLE data 8 8) (data.getD 16 0 % 256) with
         | .error e => .error e
         | .ok amounts =>
           match createFee (listReadLE data 8 8) with
           | .error e => .error e
           | .ok fee =>
             .ok ⟨init_redpacket zeroStore creator.address (listReadLE data 0 8)
               (listReadLE data 8 8) (data.getD 16 0 % 256) SPLIT_EVEN
               (data.getD 26 0 % 256) (data.getD 27 0 % 256)
               (toI64 (listReadLE data 18 8)) amounts, amounts, fee⟩) := by
  unfold processCreate
  rw [if_neg (show ¬ ([creator, creator_token, red_packet, vault, treasury,
      treasury_vault, mint, token_program, system_program].length < 9) by
    simp only [List.length_cons]; omega)]
  simp only [List.getD_cons_succ, List.getD_cons_zero]
  unfold processCreateCore
  rw [hsig, if_neg (by simp : ¬ (true = false))]
  rw [if_neg (show ¬ (token_program.address ≠ TOKEN_PROGRAM_ID) by
    rw [htp]; exact fun hh => hh rfl)]
  rw [if_neg (show ¬ (system_program.address ≠ SYSTEM_PROGRAM_ID) by
    rw [hsp]; exact fun hh => hh rfl)]
  rw [if_neg (show ¬ (data.length < 28) by omega)]
  rw [hm]
  dsimp only
  rw [if_neg (show ¬ (listReadLE data 8 8 = 0) by omega)]
  rw [if_neg (show ¬ (data.getD 16 0 % 256 = 0
      ∨ MAX_RECIPIENTS < data.getD 16 0 % 256) by omega)]
  rw [if_neg (by decide : ¬ (SPLIT_EVEN ≠ SPLIT_EVEN ∧ SPLIT_EVEN ≠ SPLIT_RANDOM))]
  rw [if_neg (not_le.mpr hexp)]
  rw [hderp]
  dsimp only
  rw [if_neg (fun hh => hh rfl : ¬ red_packet.address ≠ red_packet.address)]
  rw [hderv]
  dsimp only
  rw [if_neg (fun hh => hh rfl : ¬ vault.address ≠ vault.address)]
  rw [hval]
  dsimp only
  rw [if_neg (show ¬ (mint.address ≠ get_treasury_mint treasury.data) by
    rw [hmint]; exact fun hh => hh rfl)]
  rw [if_pos (rfl : SPLIT_EVEN = SPLIT_EVEN)]

/-- Zero-deposit rejection of Create (helper for C10): total_amount = 0 is
the first value check and fails with InvalidAmount. -/
theorem C10aux_zero (derive : DeriveFn)
    (creator creator_token red_packet vault treasury treasury_vault mint
      token_program system_program : AccountView)
    (data : List Nat) (now : Int)
    (hsig : creator.isSigner = true)
    (htp : token_program.address = TOKEN_PROGRAM_ID)
    (hsp : system_program.address = SYSTEM_PROGRAM_ID)
    (h28 : 28 ≤ data.length)
    (hz : listReadLE data 8 8 = 0) :
    processCreate derive [creator, creator_token, red_packet, vault, treasury,
      treasury_vault, mint, token_program, system_program] data now
      = .error RedPacketError.InvalidAmount := by
  unfold processCreate
  rw [if_neg (show ¬ ([creator, creator_token, red_packet, vault, treasury,
      treasury_vault, mint, token_program, system_program].length < 9) by
    simp only [List.length_cons]; omega)]
  simp only [List.getD_cons_succ, List.getD_cons_zero]
  unfold processCreateCore
  rw [hsig, if_neg (by simp : ¬ (true = false))]
  rw [if_neg (show ¬ (token_program.address ≠ TOKEN_PROGRAM_ID) by
    rw [htp]; exact fun hh => hh rfl)]
  rw [if_neg (show ¬ (system_program.address ≠ SYSTEM_PROGRAM_ID) by
    rw [hsp]; exact fun hh => hh rfl)]
  rw [if_neg (show ¬ (data.length < 28) by omega)]
  dsimp only
  rw [if_pos hz]

/-- Even-mode sub-recipient success of Create (helper for C10): for
0 < total < n the handler succeeds, the slots are n-1 zeroes then the whole
deposit, the fee is the floor of 1, and every stored slot before the last
reads back 0. -/
theorem C10aux_even (derive : DeriveFn)
    (creator creator_token red_packet vault treasury treasury_vault mint
      token_program system_program : AccountView)
    (data : List Nat) (now : Int)
    (hsig : creator.isSigner = true)
    (htp : token_program.address = TOKEN_PROGRAM_ID)
    (hsp : system_program.address = SYSTEM_PROGRAM_ID)
    (h28 : 28 ≤ data.length)
    (hm : data.getD 17 0 % 256 = SPLIT_EVEN)
    (hpos : 0 < listReadLE data 8 8)
    (hlt : listReadLE data 8 8 < data.getD 16 0 % 256)
    (hn20 : data.getD 16 0 % 256 ≤ MAX_RECIPIENTS)
    (hexp : now < toI64 (listReadLE data 18 8))
    (hderp : derive [SEED_PREFIX, creator.address,
      natToBytesLE 8 (listReadLE data 0 8), [data.getD 26 0 % 256]]
      = some red_packet.address)
    (hderv : derive [VAULT_SEED, creator.address,
      natToBytesLE 8 (listReadLE data 0 8), [data.getD 27 0 % 256]]
      = some vault.address)
    (hval : validate_treasury treasury ID = .ok ())
    (hmint : mint.address = get_treasury_mint treasury.data) :
    processCreate derive [creator, creator_token, red_packet, vault, treasury,
      treasury_vault, mint, token_program, system_program] data now
      = .ok ⟨init_redpacket zeroStore creator.address (listReadLE data 0 8)
          (listReadLE data 8 8) (data.getD 16 0 % 256) SPLIT_EVEN
          (data.getD 26 0 % 256) (data.getD 27 0 % 256)
          (toI64 (listReadLE data 18 8))
          (List.replicate (data.getD 16 0 % 256 - 1) 0
            ++ [listReadLE data 8 8]),
        List.replicate (data.getD 16 0 % 256 - 1) 0 ++ [listReadLE data 8 8],
        1⟩ ∧
    (∀ i, i < data.getD 16 0 % 256 - 1 →
      get_amount_at (init_redpacket zeroStore creator.address
        (listReadLE data 0 8) (listReadLE data 8 8) (data.getD 16 0 % 256)
        SPLIT_EVEN (data.getD 26 0 % 256) (data.getD 27 0 % 256)
        (toI64 (listReadLE data 18 8))
        (List.replicate (data.getD 16 0 % 256 - 1) 0
          ++ [listReadLE data 8 8])) i = 0) := by
  have h20 : data.getD 16 0 % 256 ≤ 20 := by
    simp only [MAX_RECIPIENTS] at hn20; exact hn20
  have hkey := processCreate_even_eq derive creator creator_token red_packet
    vault treasury treasury_vault mint token_program system_program data now
    hsig htp hsp h28 hm hpos hlt hn20 hexp hderp hderv hval hmint
  rw [evenSplit_lt (listReadLE data 8 8) (data.getD 16 0 % 256) hlt
    (by omega)] at hkey
  dsimp only at hkey
  rw [createFee_small (listReadLE data 8 8) (by omega)] at hkey
  dsimp only at hkey
  refine ⟨hkey, ?_⟩
  intro i hi
  rw [init_amount_at zeroStore creator.address (listReadLE data 0 8)
    (listReadLE data 8 8) (data.getD 16 0 % 256) SPLIT_EVEN
    (data.getD 26 0 % 256) (data.getD 27 0 % 256)
    (toI64 (listReadLE data 18 8))
    (List.replicate (data.getD 16 0 % 256 - 1) 0 ++ [listReadLE data 8 8]) i
    (by rw [List.length_append, List.length_replicate, List.length_cons,
      List.length_nil]; omega)]
  rw [replicate_append_getD (data.getD 16 0 % 256 - 1) (listReadLE data 8 8)
    i hi]
  rfl

/-- C10: Create in Even mode rejects only a zero total_amount with
InvalidAmount; for every payload with 0 < total_amount < num_recipients and
the account-side checks passing it succeeds, each slot except the last
stores total_amount / num_recipients = 0 (the last stores the whole
deposit), and a stored slot before the last reads back exactly 0 - the
per-slot nonzero requirement is enforced only in Random mode. -/
theorem C10_even_mode_zero_slots (derive : DeriveFn)
    (creator creator_token red_packet vault treasury treasury_vault mint
      token_program system_program : AccountView)
    (data : List Nat) (now : Int)
    (hsig : creator.isSigner = true)
    (htp : token_program.address = TOKEN_PROGRAM_ID)
    (hsp : system_program.address = SYSTEM_PROGRAM_ID)
    (h28 : 28 ≤ data.length) :
    (listReadLE data 8 8 = 0 →
      processCreate derive [creator, creator_token, red_packet, vault,
        treasury, treasury_vault, mint, token_program, system_program] data now
        = .error RedPacketError.InvalidAmount) ∧
    (data.getD 17 0 % 256 = SPLIT_EVEN →
      0 < listReadLE data 8 8 →
      listReadLE data 8 8 < data.getD 16 0 % 256 →
      data.getD 16 0 % 256 ≤ MAX_RECIPIENTS →
      now < toI64 (listReadLE data 18 8) →
      derive [SEED_PREFIX, creator.address,
        natToBytesLE 8 (listReadLE data 0 8), [data.getD 26 0 % 256]]
        = some red_packet.address →
      derive [VAULT_SEED, creator.address,
        natToBytesLE 8 (listReadLE data 0 8), [data.getD 27 0 % 256]]
        = some vault.address →
      validate_treasury treasury ID = .ok () →
      mint.address = get_treasury_mint treasury.data →
      processCreate derive [creator, creator_token, red_packet, vault,
        treasury, treasury_vault, mint, token_program, system_program] data now
        = .ok ⟨init_redpacket zeroStore creator.address (listReadLE data 0 8)
            (listReadLE data 8 8) (data.getD 16 0 % 256) SPLIT_EVEN
            (data.getD 26 0 % 256) (data.getD 27 0 % 256)
            (toI64 (listReadLE data 18 8))
            (List.replicate (data.getD 16 0 % 256 - 1) 0
              ++ [listReadLE data 8 8]),
          List.replicate (data.getD 16 0 % 256 - 1) 0 ++ [listReadLE data 8 8],
          1⟩ ∧
        (∀ i, i < data.getD 16 0 % 256 - 1 →
          get_amount_at (init_redpacket zeroStore creator.address
            (listReadLE data 0 8) (listReadLE data 8 8)
            (data.getD 16 0 % 256) SPLIT_EVEN (data.getD 26 0 % 256)
            (data.getD 27 0 % 256) (toI64 (listReadLE data 18 8))
            (List.replicate (data.getD 16 0 % 256 - 1) 0
              ++ [listReadLE data 8 8])) i = 0)) :=
  ⟨fun hz => C10aux_zero derive creator creator_token red_packet vault treasury
      treasury_vault mint token_program system_program data now
      hsig htp hsp h28 hz,
    fun hm hpos hlt hn20 hexp hderp hderv hval hmint =>
      C10aux_even derive creator creator_token red_packet vault treasury
        treasury_vault mint token_program system_program data now
        hsig htp hsp h28 hm hpos hlt hn20 hexp hderp hderv hval hmint⟩

/-- Even-mode Create payload: id 7, total_amount 2, 3 recipients, even split,
expiry 100, bumps 4 and 9. -/
def testCreateData : List Nat :=
  [7, 0, 0, 0, 0, 0, 0, 0,
   2, 0, 0, 0, 0, 0, 0, 0,
   3, 0,
   100, 0, 0, 0, 0, 0, 0, 0,
   4, 9]

def testRPAcct10 : AccountView :=
  { address := testVaultAddr, owner := SYSTEM_PROGRAM_ID, lamports := 0,
    data := zeroStore, dataLen := 0, isSigner := false }

def testVaultAcct10 : AccountView :=
  { address := testVaultAddr, owner := SYSTEM_PROGRAM_ID, lamports := 0,
    data := zeroStore, dataLen := 0, isSigner := false }

def testMintAcct10 : AccountView :=
  { address := List.replicate 32 1, owner := SYSTEM_PROGRAM_ID, lamports := 0,
    data := zeroStore, dataLen := 0, isSigner := false }

def testTokenProgAcct : AccountView :=
  { address := TOKEN_PROGRAM_ID, owner := SYSTEM_PROGRAM_ID, lamports := 0,
    data := zeroStore, dataLen := 0, isSigner := false }

def testSysProgAcct : AccountView :=
  { address := SYSTEM_PROGRAM_ID, owner := SYSTEM_PROGRAM_ID, lamports := 0,
    data := zeroStore, dataLen := 0, isSigner := false }

theorem C10_even_mode_zero_slots_witness :
    processCreate testDerive [testCreatorAcct, defaultAccount, testRPAcct10,
      testVaultAcct10, testTreasury, defaultAccount, testMintAcct10,
      testTokenProgAcct, testSysProgAcct] testCreateData 0
      = .ok ⟨init_redpacket zeroStore testCreator 7 2 3 SPLIT_EVEN 4 9 100
          [0, 0, 2], [0, 0, 2], 1⟩ ∧
    get_amount_at (init_redpacket zeroStore testCreator 7 2 3 SPLIT_EVEN 4 9 100
      [0, 0, 2]) 0 = 0 := by
  have h := (C10_even_mode_zero_slots testDerive testCreatorAcct defaultAccount
    testRPAcct10 testVaultAcct10 testTreasury defaultAccount testMintAcct10
    testTokenProgAcct testSysProgAcct testCreateData 0 rfl rfl rfl
    (by decide)).2 (by decide) (by decide) (by decide) (by decide) (by decide)
    rfl rfl (by rfl) (by decide)
  refine ⟨?_, h.2 0 (by decide)⟩
  rw [h.1]
  rfl

end RedPacket
